import Mathlib

/-!
# The `config` example of libgit2 (`examples/config.c`)

A shallow embedding of the command-line front end in `examples/config.c`:
`parse_options`, `prepare_config`, `config_set`, `config_get`,
`config_get_all_cb`, `config_get_all` and `do_config`.

* C strings are `String`; a pointer that may be `NULL` is an `Option String`.
* `memset(opt, 0, ...)` gives `none` for the two enums and the pointers and
  `false` for the `int` flags.
* A call that ends the process (`usage`, `fatal`, a failing `check_lg2`) is an
  `Exit` value carried in `Except`.
* Text written with `printf` is accumulated in a `String`.
* The library behind the example (configuration store, value coercion,
  regular expressions, path discovery) is not under src/; the definitions
  that stand for it say so in their doc comments.
-/

namespace Config

/-- Results in `Except` can be compared when both sides can. -/
instance instDecidableEqExcept {ε α : Type} [DecidableEq ε] [DecidableEq α] :
    DecidableEq (Except ε α)
  | .ok a, .ok b => if h : a = b then isTrue (by rw [h]) else isFalse (by intro e; cases e; exact h rfl)
  | .error a, .error b =>
    if h : a = b then isTrue (by rw [h]) else isFalse (by intro e; cases e; exact h rfl)
  | .ok _, .error _ => isFalse (by intro e; cases e)
  | .error _, .ok _ => isFalse (by intro e; cases e)

/-! ## Types of `config.c` -/

/-- The enum `var_type_t` of `config.c`; the value `0` left by `memset` is
`none` in `config_options.var_type`. -/
inductive var_type_t where
  | VAR_TYPE_BOOL
  | VAR_TYPE_INT
  | VAR_TYPE_BOOLORINT
  | VAR_TYPE_PATH
  deriving DecidableEq, Repr

/-- Modelled from the spec: the enum `git_config_level_t` is declared in the
library headers, not under src/. The levels are those the spec lists for a
Level, from lowest to highest precedence. -/
inductive git_config_level_t where
  | GIT_CONFIG_LEVEL_SYSTEM
  | GIT_CONFIG_LEVEL_XDG
  | GIT_CONFIG_LEVEL_GLOBAL
  | GIT_CONFIG_LEVEL_LOCAL
  | GIT_CONFIG_LEVEL_APP
  deriving DecidableEq, Repr

/-- The struct `config_options`: the parsed command line. The C field `def`
is spelt `def_` here. -/
structure config_options where
  level : Option git_config_level_t := none
  file : Option String := none
  var_type : Option var_type_t := none
  null : Bool := false
  def_ : Bool := false
  add : Bool := false
  replace_all : Bool := false
  get : Bool := false
  get_all : Bool := false
  get_regexp : Bool := false
  get_urlmatch : Bool := false
  unset : Bool := false
  unset_all : Bool := false
  rename_section : Bool := false
  remove_section : Bool := false
  list : Bool := false
  p1 : Option String := none
  p2 : Option String := none
  p3 : Option String := none
  deriving DecidableEq, Repr

/-- Modelled from the spec: the enum `git_error_code` is declared in the
library headers, not under src/. Every member is a non-zero result; the
members are the error kinds of the spec's error taxonomy. -/
inductive git_error_code where
  | GIT_ERROR
  | GIT_ENOTFOUND
  | GIT_EEXISTS
  | GIT_EAMBIGUOUS
  | GIT_EINVALIDSPEC
  deriving DecidableEq, Repr

/-- The `int` value of a library error. -/
def git_error_code.toInt : git_error_code → Int
  | .GIT_ERROR => -1
  | .GIT_ENOTFOUND => -3
  | .GIT_EEXISTS => -4
  | .GIT_EAMBIGUOUS => -5
  | .GIT_EINVALIDSPEC => -12

/-- The ways the process ends before `main` returns. -/
inductive Exit where
  /-- The function `usage(message, arg)`: prints and calls `exit(129)`. -/
  | usage (message : Option String) (arg : Option String)
  /-- Modelled helper `fatal(message, extra)` of `common.c`: `exit(1)`. -/
  | fatal (message : String) (extra : String)
  /-- A failing `check_lg2(error, message, extra)`: `exit(1)`. -/
  | lg2 (error : git_error_code) (message : String) (extra : String)
  /-- A `NULL` pointer handed to a library call that reads it: outside what C
  defines, and shown as an outcome of its own. -/
  | null_argument
  /-- The call `printf("%s\n", out)` of lines 153 and 202, where `out` is the
  `git_buf` struct and not its text `out.ptr`: the argument has not the type
  the conversion `%s` expects, which C leaves undefined. Neither the text that
  is written nor the way the process goes on is determined; the embedding
  stops here and says nothing of either. -/
  | undefined_printf
  deriving DecidableEq, Repr

/-- The exit status of the process for each way of ending. For the two
outcomes that C leaves undefined no status is determined; they are given the
status of a process ended by a memory fault, and no statement rests on it. -/
def Exit.status : Exit → Int
  | .usage _ _ => 129
  | .fatal _ _ => 1
  | .lg2 _ _ _ => 1
  | .null_argument => 139
  | .undefined_printf => 139

/-- Modelled from the spec: `check_lg2` belongs to `examples/common.c`, which
is not under src/. A zero result lets the caller go on with the value; any
other result is reported and the command is aborted. -/
def check_lg2 {α : Type} (result : Except git_error_code α) (message : String)
    (extra : String) : Except Exit α :=
  match result with
  | .ok a => .ok a
  | .error e => .error (Exit.lg2 e message extra)

/-- Reading a C string pointer that must not be `NULL`. -/
def deref (p : Option String) : Except Exit String :=
  match p with
  | some s => .ok s
  | none => .error Exit.null_argument

/-! ## `usage`, `wrong_arg_count`, `parse_options` -/

/-- The function `usage` of `config.c`: always ends the process with 129. -/
def usage {α : Type} (message : Option String) (arg : Option String) : Except Exit α :=
  .error (Exit.usage message arg)

/-- The function `wrong_arg_count` of `config.c`. -/
def wrong_arg_count {α : Type} : Except Exit α :=
  usage (some "error") (some "wrong number of arguments")

/-- Result of the helper `match_str_arg`. -/
inductive match_result where
  | no_match
  | found (out : String) (pos : Nat)
  | missing_value
  deriving DecidableEq, Repr

/-- Modelled from the spec: `match_str_arg` belongs to `examples/common.c`,
which is not under src/. It serves the `--file <path>` item of the CLI
surface: the token at `pos` is the option itself, with the value in the next
token (the position moves onto it), or the option followed by `=` and the
value; an option in last position has no value, which is fatal. -/
def match_str_arg (argv : List String) (pos : Nat) (o : String) : match_result :=
  let found := (argv.getD pos "").data
  let len := o.data.length
  if o.data.isPrefixOf found then
    match found.drop len with
    | [] =>
      if pos + 1 = argv.length then .missing_value
      else .found (argv.getD (pos + 1) "") (pos + 1)
    | c :: rest => if c = '=' then .found (String.mk rest) pos else .no_match
  else .no_match

/-- First block of `parse_options` ("config file location"). -/
def parse_level (argv : List String) (opt : config_options) (pos : Nat) :
    Except Exit (config_options × Nat) :=
  if argv.length > pos then
    let a := argv.getD pos ""
    if a = "--local" then
      .ok ({ opt with level := some .GIT_CONFIG_LEVEL_LOCAL }, pos + 1)
    else if a = "--global" then
      .ok ({ opt with level := some .GIT_CONFIG_LEVEL_GLOBAL }, pos + 1)
    else if a = "--system" then
      .ok ({ opt with level := some .GIT_CONFIG_LEVEL_SYSTEM }, pos + 1)
    else
      match match_str_arg argv pos "-f" with
      | .missing_value => .error (Exit.fatal "expected value following argument" "-f")
      | .found out pos1 =>
        .ok ({ opt with file := some out, level := some .GIT_CONFIG_LEVEL_APP }, pos1 + 1)
      | .no_match =>
        match match_str_arg argv pos "--file" with
        | .missing_value => .error (Exit.fatal "expected value following argument" "--file")
        | .found out pos1 =>
          .ok ({ opt with file := some out, level := some .GIT_CONFIG_LEVEL_APP }, pos1 + 1)
        | .no_match => .ok (opt, pos)
  else .ok (opt, pos)

/-- Second block of `parse_options` ("type"). -/
def parse_type (argv : List String) (opt : config_options) (pos : Nat) :
    config_options × Nat :=
  if argv.length > pos then
    let a := argv.getD pos ""
    if a = "--bool" then ({ opt with var_type := some .VAR_TYPE_BOOL }, pos + 1)
    else if a = "--int" then ({ opt with var_type := some .VAR_TYPE_INT }, pos + 1)
    else if a = "--bool-or-int" then ({ opt with var_type := some .VAR_TYPE_BOOLORINT }, pos + 1)
    else if a = "--path" then ({ opt with var_type := some .VAR_TYPE_PATH }, pos + 1)
    else (opt, pos)
  else (opt, pos)

/-- Third block of `parse_options` ("null"). -/
def parse_null (argv : List String) (opt : config_options) (pos : Nat) :
    config_options × Nat :=
  if argv.length > pos then
    let a := argv.getD pos ""
    if a = "-z" ∨ a = "--null" then ({ opt with null := true }, pos + 1)
    else (opt, pos)
  else (opt, pos)

/-- Fourth block of `parse_options`: the intent flag, or a bare key. -/
def parse_intent (argv : List String) (opt : config_options) (pos : Nat) :
    Except Exit (config_options × Nat) :=
  if argv.length > pos then
    let a := argv.getD pos ""
    if a = "--add" then .ok ({ opt with add := true }, pos + 1)
    else if a = "--replace-all" then .ok ({ opt with replace_all := true }, pos + 1)
    else if a = "--get" then .ok ({ opt with get := true }, pos + 1)
    else if a = "--get-all" then .ok ({ opt with get_all := true }, pos + 1)
    else if a = "--get-regexp" then .ok ({ opt with get_regexp := true }, pos + 1)
    else if a = "--get-urlmatch" then .ok ({ opt with get_urlmatch := true }, pos + 1)
    else if a = "--unset" then .ok ({ opt with unset := true }, pos + 1)
    else if a = "--unset-all" then .ok ({ opt with unset_all := true }, pos + 1)
    else if a = "--rename-section" then .ok ({ opt with rename_section := true }, pos + 1)
    else if a = "--remove-section" then .ok ({ opt with remove_section := true }, pos + 1)
    else if a = "-l" ∨ a = "--list" then .ok ({ opt with list := true }, pos + 1)
    else if a.data.head? = some '-' then usage (some "Unsupported argument") (some a)
    else .ok ({ opt with def_ := true }, pos)
  else .ok (opt, pos)

/-- The loop `for (; args.pos < argc; ++args.pos)` of `parse_options`, run
over the tokens from `args.pos` on; `argp` counts them. -/
def collect_params : List String → Nat → config_options → config_options × Nat
  | [], argp, opt => (opt, argp)
  | a :: rest, argp, opt =>
    let argp1 := argp + 1
    let opt1 :=
      if argp1 = 1 then { opt with p1 := some a }
      else if argp1 = 2 then { opt with p2 := some a }
      else if argp1 = 3 then { opt with p3 := some a }
      else opt
    collect_params rest argp1 opt1

/-- The twelve argument-count checks that end `parse_options`, in order. -/
def check_arg_count (opt : config_options) (argp : Nat) : Except Exit Unit := do
  if opt.def_ ∧ (argp ≠ 1 ∧ argp ≠ 2 ∧ argp ≠ 3) then wrong_arg_count
  if opt.add ∧ argp ≠ 2 then wrong_arg_count
  if opt.replace_all ∧ (argp ≠ 2 ∧ argp ≠ 3) then wrong_arg_count
  if opt.get ∧ (argp ≠ 1 ∧ argp ≠ 2) then wrong_arg_count
  if opt.get_all ∧ (argp ≠ 1 ∧ argp ≠ 2) then wrong_arg_count
  if opt.get_regexp ∧ (argp ≠ 1 ∧ argp ≠ 2) then wrong_arg_count
  if opt.get_urlmatch ∧ argp ≠ 2 then wrong_arg_count
  if opt.unset ∧ (argp ≠ 1 ∧ argp ≠ 2) then wrong_arg_count
  if opt.unset_all ∧ (argp ≠ 1 ∧ argp ≠ 2) then wrong_arg_count
  if opt.rename_section ∧ argp ≠ 2 then wrong_arg_count
  if opt.remove_section ∧ argp ≠ 1 then wrong_arg_count
  if opt.list ∧ argp > 0 then wrong_arg_count
  return ()

/-- The three option blocks that precede the intent: level, type, null. -/
def parse_head (argv : List String) : Except Exit (config_options × Nat) := do
  let (opt1, pos1) ← parse_level argv {} 1
  let (opt2, pos2) := parse_type argv opt1 pos1
  return parse_null argv opt2 pos2

/-- The function `parse_options` of `config.c`; `argv` holds the program name
at index 0 and `argc` is its length. The result is the filled `opt` and the
returned `args.pos`. -/
def parse_options (argv : List String) : Except Exit (config_options × Nat) := do
  let (opt3, pos3) ← parse_head argv
  let (opt4, pos4) ← parse_intent argv opt3 pos3
  let (opt5, argp) := collect_params (argv.drop pos4) 0 opt4
  check_arg_count opt5 argp
  return (opt5, max pos4 argv.length)

/-! ## The library behind the example

None of the functions of this section is under src/: each is a model of the
library call of the same name, written from the component contracts of the
specification (Level Store, Value Coercion, Layered Config, Snapshot). -/

/-- A compiled pattern: an optional `^`, literal characters, an optional `$`. -/
structure regex_t where
  anchor_start : Bool
  body : List Char
  anchor_end : Bool
  deriving DecidableEq, Repr

/-- Characters with a special meaning in a POSIX extended regular expression. -/
def regex_special (c : Char) : Bool :=
  c ∈ ['.', '[', ']', '(', ')', '*', '+', '?', '|', '\\', '^', '$', '\x7b', '\x7d']

/-- Modelled from the spec: the regular-expression compiler (`regcomp` with
`REG_EXTENDED`, called by the store) is not under src/ and the spec leaves the
pattern language to it. The model covers the fragment of POSIX extended
patterns made of an optional leading `^`, ordinary characters and an optional
trailing `$`, which contains both fixed patterns of `config_set`; a pattern
outside the fragment is outside the model: the refusal stands for that, not
for what the library does with such a pattern, and no statement compiles
one. -/
def regcomp (pattern : String) : Except git_error_code regex_t :=
  let cs := pattern.data
  let anchor_start := cs.head? = some '^'
  let cs1 := if anchor_start then cs.drop 1 else cs
  let anchor_end := cs1.getLast? = some '$'
  let cs2 := if anchor_end then cs1.dropLast else cs1
  if cs2.any regex_special then .error .GIT_ERROR
  else .ok { anchor_start := anchor_start, body := cs2, anchor_end := anchor_end }

/-- Whether `body` occurs in `text` as a contiguous run. -/
def occurs (body : List Char) : List Char → Bool
  | [] => body.isEmpty
  | c :: rest => body.isPrefixOf (c :: rest) || occurs body rest

/-- Modelled from the spec: the matcher `regexec` (no `REG_NEWLINE`) is not
under src/. A pattern matches a text when some run of the text equals the
literal body, the run starting the text under `^` and ending it under `$`. -/
def regexec (preg : regex_t) (text : String) : Bool :=
  match preg.anchor_start, preg.anchor_end with
  | true, true => text.data = preg.body
  | true, false => preg.body.isPrefixOf text.data
  | false, true => preg.body.isSuffixOf text.data
  | false, false => occurs preg.body text.data

/-- Lower-casing of an ASCII string. -/
def ascii_lower (s : String) : String :=
  String.mk (s.data.map Char.toLower)

/-- Modelled from the spec: `git_config_parse_bool` is not under src/. The spec
(Value Coercion, `to_bool`) has it accept, case-insensitively, true/false,
yes/no, on/off and 1/0, and fail with InvalidBool otherwise. -/
def git_config_parse_bool (value : String) : Except git_error_code Bool :=
  let v := ascii_lower value
  if v = "true" ∨ v = "yes" ∨ v = "on" ∨ v = "1" then .ok true
  else if v = "false" ∨ v = "no" ∨ v = "off" ∨ v = "0" then .ok false
  else .error .GIT_ERROR

/-- Value of a run of decimal digits, most significant first; `none` when a
character is not a digit. -/
def digits_value : List Char → Nat → Option Nat
  | [], acc => some acc
  | c :: rest, acc =>
    if c.isDigit then digits_value rest (10 * acc + (c.toNat - '0'.toNat)) else none

/-- The multiplier of a unit suffix: k, m, g in either case. -/
def unit_multiplier (c : Char) : Option Nat :=
  if c = 'k' ∨ c = 'K' then some 1024
  else if c = 'm' ∨ c = 'M' then some (1024 * 1024)
  else if c = 'g' ∨ c = 'G' then some (1024 * 1024 * 1024)
  else none

/-- The unsigned part of an integer literal: digits and at most one suffix. -/
def magnitude (cs : List Char) : Option Nat :=
  match cs.getLast? with
  | none => none
  | some last =>
    match unit_multiplier last with
    | some m =>
      if cs.dropLast = [] then none
      else (digits_value cs.dropLast 0).map (fun n => n * m)
    | none => digits_value cs 0

/-- Modelled from the spec: `git_config_parse_int64` is not under src/. The
spec (Value Coercion, `to_int64`) has it accept an optional sign, decimal
digits and an optional single trailing unit suffix k, m or g (either case)
that multiplies by 1024, 1024², 1024³; a value outside the 64-bit signed range
is an error. -/
def git_config_parse_int64 (value : String) : Except git_error_code Int :=
  let cs := value.data
  let negative := cs.head? = some '-'
  let signed := negative ∨ cs.head? = some '+'
  match magnitude (if signed then cs.drop 1 else cs) with
  | none => .error .GIT_ERROR
  | some n =>
    let i : Int := if negative then -(n : Int) else (n : Int)
    if -(2 ^ 63 : Int) ≤ i ∧ i < (2 ^ 63 : Int) then .ok i else .error .GIT_ERROR

/-- Modelled from the spec: `git_config_parse_path` is not under src/. The spec
(Value Coercion, `to_path`) has a value that begins with `~/` expand to the
home directory followed by the remainder, failing when no home directory can
be resolved, and any other value pass through unchanged. -/
def git_config_parse_path (home : Option String) (value : String) :
    Except git_error_code String :=
  if "~/".data.isPrefixOf value.data then
    match home with
    | some h => .ok (h ++ String.mk (value.data.drop 1))
    | none => .error .GIT_ENOTFOUND
  else .ok value

/-- The text `printf("%" PRId64, value)` writes for a 64-bit integer. -/
def PRId64 (value : Int) : String := toString value

/-- The text of `value ? "true" : "false"`. -/
def bool_text (value : Bool) : String := if value then "true" else "false"

/-- One stored setting of a configuration file: the key as written and the raw
value (the spec's Entry; the level is that of the file's layer). -/
structure config_entry where
  name : String
  value : String
  deriving DecidableEq, Repr

/-- The state outside the process: the configuration files by path, and the
answers of the path and repository discovery collaborators. -/
structure World where
  files : List (String × List config_entry) := []
  home : Option String := none
  system_file : Except git_error_code String := .error .GIT_ENOTFOUND
  global_file : Except git_error_code String := .error .GIT_ENOTFOUND
  xdg_file : Except git_error_code String := .error .GIT_ENOTFOUND
  repository : Except git_error_code String := .error .GIT_ENOTFOUND
  deriving DecidableEq, Repr

/-- The records of the file at `path`; a file that does not exist has none. -/
def World.read (w : World) (path : String) : List config_entry :=
  (w.files.lookup path).getD []

/-- Persisting the full ordered sequence of records of the file at `path`. -/
def World.write (w : World) (path : String) (entries : List config_entry) : World :=
  { w with files := (path, entries) :: w.files.filter (fun f => f.1 != path) }

/-- Modelled from the spec: `git_config_find_system` is not under src/; it is
the path discovery collaborator for the system file. -/
def git_config_find_system (w : World) : Except git_error_code String := w.system_file

/-- Modelled from the spec: `git_config_find_global` is not under src/; it is
the path discovery collaborator for the global file. -/
def git_config_find_global (w : World) : Except git_error_code String := w.global_file

/-- Modelled from the spec: `git_config_find_xdg` is not under src/; it is the
path discovery collaborator for the optional XDG file. -/
def git_config_find_xdg (w : World) : Except git_error_code String := w.xdg_file

/-- Modelled from the spec: `git_repository_discover` is not under src/; it is
the repository discovery collaborator. -/
def git_repository_discover (w : World) : Except git_error_code String := w.repository

/-- Modelled from the spec: key validation and normalisation are not under
src/. A key has the shape section.name or section.subsection.name; the section
and the name are compared without regard to case, the subsection exactly. A
malformed key is InvalidKeyFormat. -/
def git_config__normalize_name (name : String) : Except git_error_code String :=
  let cs := name.data
  let sect := cs.takeWhile (fun c => c != '.')
  let rest := cs.drop sect.length
  let last := (rest.reverse.takeWhile (fun c => c != '.')).reverse
  let middle := rest.take (rest.length - last.length)
  if sect = [] ∨ rest = [] ∨ last = [] then .error .GIT_EINVALIDSPEC
  else .ok (String.mk (sect.map Char.toLower ++ middle ++ last.map Char.toLower))

/-- Whether a stored entry is bound to the normalised key `key`. -/
def key_matches (key : String) (e : config_entry) : Bool :=
  decide (git_config__normalize_name e.name = .ok key)

/-- The entries of a file for `key`, in file order (Level Store `entries`). -/
def entries_of (key : String) (es : List config_entry) : List config_entry :=
  es.filter (key_matches key)

/-- Whether an entry is one that `replace_matching` selects. -/
def selected (key : String) (preg : regex_t) (e : config_entry) : Bool :=
  key_matches key e && regexec preg e.value

/-- Modelled from the spec: the Level Store operation `replace_matching` with a
regex is not under src/. Each entry of the key whose raw value matches the
regex has its value replaced in place; when no entry matches, the new value is
appended. -/
def replace_matching (key name value : String) (preg : regex_t)
    (es : List config_entry) : List config_entry :=
  if es.any (selected key preg) then
    es.map (fun e => if selected key preg e then { e with value := value } else e)
  else es ++ [{ name := name, value := value }]

/-- Modelled from the spec: the Level Store operation `replace_matching`
without a regex is not under src/. The single existing entry of the key is
replaced in place; more than one is AmbiguousKey. With no existing entry the
value is appended, as the round-trip property of the spec requires of a first
write. -/
def replace_single (key name value : String) (es : List config_entry) :
    Except git_error_code (List config_entry) :=
  match entries_of key es with
  | [] => .ok (es ++ [{ name := name, value := value }])
  | [_] => .ok (es.map (fun e => if key_matches key e then { e with value := value } else e))
  | _ :: _ :: _ => .error .GIT_EAMBIGUOUS

/-- One layer of a layered configuration: a file and its level. -/
structure Layer where
  path : String
  level : git_config_level_t
  deriving DecidableEq, Repr

/-- The rank of a level; a higher rank overrides a lower one. -/
def git_config_level_t.rank : git_config_level_t → Nat
  | .GIT_CONFIG_LEVEL_SYSTEM => 1
  | .GIT_CONFIG_LEVEL_XDG => 2
  | .GIT_CONFIG_LEVEL_GLOBAL => 3
  | .GIT_CONFIG_LEVEL_LOCAL => 4
  | .GIT_CONFIG_LEVEL_APP => 5

/-- Modelled from the spec: the type `git_config` is not under src/. A live
Layered Config is the sequence of its layers by descending precedence, read
from and written to the files; a Snapshot holds a copy of the entries of each
layer and is read-only. -/
inductive git_config where
  | live (layers : List Layer)
  | snapshot (layers : List (Layer × List config_entry))
  deriving DecidableEq, Repr

/-- Whether a configuration handle is a snapshot. -/
def git_config.is_snapshot : git_config → Bool
  | .live _ => false
  | .snapshot _ => true

/-- The layers a configuration handle is made of. -/
def git_config.layers : git_config → List Layer
  | .live ls => ls
  | .snapshot ls => ls.map Prod.fst

/-- The entries visible through a handle, layer by layer in descending
precedence: those of the files for a live handle, the copies for a snapshot. -/
def git_config.view (w : World) : git_config → List (Layer × List config_entry)
  | .live ls => ls.map (fun l => (l, w.read l.path))
  | .snapshot ls => ls

/-- Modelled from the spec: `git_config_new` is not under src/; it gives a
Layered Config with no layer. -/
def git_config_new : Except git_error_code git_config := .ok (.live [])

/-- Insertion of a layer by descending rank. -/
def insert_layer (l : Layer) : List Layer → List Layer
  | [] => [l]
  | x :: xs => if x.level.rank < l.level.rank then l :: x :: xs else x :: insert_layer l xs

/-- Modelled from the spec: `git_config_add_file_ondisk` is not under src/. It
adds the Level Store of `path` at `level`; exactly one store backs a level, so
with `force` the new store takes the place of one already at that level, and
without `force` the call fails. -/
def git_config_add_file_ondisk (cfg : git_config) (path : String)
    (level : git_config_level_t) (force : Bool) : Except git_error_code git_config :=
  match cfg with
  | .snapshot _ => .error .GIT_ERROR
  | .live ls =>
    if ls.any (fun x => x.level = level) ∧ force = false then .error .GIT_EEXISTS
    else .ok (.live (insert_layer { path := path, level := level }
      (ls.filter (fun x => x.level ≠ level))))

/-- Modelled from the spec: `git_config_open_default` is not under src/. It
layers the global, XDG and system files that path discovery finds. -/
def git_config_open_default (w : World) : Except git_error_code git_config :=
  let add (found : Except git_error_code String) (level : git_config_level_t)
      (ls : List Layer) : List Layer :=
    match found with
    | .ok path => insert_layer { path := path, level := level } ls
    | .error _ => ls
  .ok (.live (add (git_config_find_global w) .GIT_CONFIG_LEVEL_GLOBAL
    (add (git_config_find_xdg w) .GIT_CONFIG_LEVEL_XDG
      (add (git_config_find_system w) .GIT_CONFIG_LEVEL_SYSTEM []))))

/-- Modelled from the spec: `git_repository_open` is not under src/. The
repository object model is outside the spec; a root that repository discovery
returned opens. -/
def git_repository_open (_w : World) (_root : String) : Except git_error_code Unit := .ok ()

/-- Modelled from the spec: `git_repository_config` is not under src/. It
gives the effective configuration of the repository at `root`: its local file
above the default layers. -/
def git_repository_config (w : World) (root : String) : Except git_error_code git_config :=
  match git_config_open_default w with
  | .ok (.live ls) =>
    .ok (.live (insert_layer { path := root ++ "config", level := .GIT_CONFIG_LEVEL_LOCAL } ls))
  | .ok (.snapshot _) => .error .GIT_ERROR
  | .error e => .error e

/-- Modelled from the spec: `git_config_snapshot` is not under src/. It walks
every layer once, in precedence order, and copies all its entries. -/
def git_config_snapshot (w : World) (cfg : git_config) : Except git_error_code git_config :=
  .ok (.snapshot (cfg.view w))

/-- The lookup of `get_single` over the layers by descending precedence. -/
def lookup_single (key : String) : List (Layer × List config_entry) →
    Except git_error_code String
  | [] => .error .GIT_ENOTFOUND
  | (_, es) :: rest =>
    match entries_of key es with
    | [] => lookup_single key rest
    | [e] => .ok e.value
    | _ :: _ :: _ => .error .GIT_EAMBIGUOUS

/-- Modelled from the spec: `git_config_get_string` is not under src/. It is
`get_single`: the entry of the highest-precedence layer that defines the key,
AmbiguousKey when that layer holds more than one value, NotFound when no
layer defines the key; a malformed key fails before any lookup. -/
def git_config_get_string (w : World) (cfg : git_config) (name : String) :
    Except git_error_code String :=
  match git_config__normalize_name name with
  | .error e => .error e
  | .ok key => lookup_single key (cfg.view w)

/-- Modelled from the spec: `git_config_get_bool` is not under src/: the
lookup of `get_single` followed by the coercion `to_bool`. -/
def git_config_get_bool (w : World) (cfg : git_config) (name : String) :
    Except git_error_code Bool :=
  match git_config_get_string w cfg name with
  | .error e => .error e
  | .ok value => git_config_parse_bool value

/-- Modelled from the spec: `git_config_get_int64` is not under src/: the
lookup of `get_single` followed by the coercion `to_int64`. -/
def git_config_get_int64 (w : World) (cfg : git_config) (name : String) :
    Except git_error_code Int :=
  match git_config_get_string w cfg name with
  | .error e => .error e
  | .ok value => git_config_parse_int64 value

/-- The entries of `get_all`: per layer from lowest to highest precedence, all
entries of the key in file order. -/
def get_all (key : String) (view : List (Layer × List config_entry)) : List config_entry :=
  view.reverse.flatMap (fun l => entries_of key l.2)

/-- The compiled optional filter of a multivar enumeration (`NULL`: none). -/
def compile_filter (regexp : Option String) : Except git_error_code (Option regex_t) :=
  match regexp with
  | none => .ok none
  | some r =>
    match regcomp r with
    | .ok preg => .ok (some preg)
    | .error e => .error e

/-- Whether an entry passes the optional filter of a multivar enumeration. -/
def passes (filter : Option regex_t) (e : config_entry) : Bool :=
  match filter with
  | none => true
  | some preg => regexec preg e.value

/-- The calls of the callback over the selected entries, in order: the text
written so far is kept; a callback that ends the process or returns a
non-zero value stops the enumeration. -/
def foreach_entries (cb : config_entry → String × Except Exit Int) :
    List config_entry → String × Except Exit Int
  | [] => ("", .ok 0)
  | e :: rest =>
    match cb e with
    | (out, .error x) => (out, .error x)
    | (out, .ok r) =>
      if r ≠ 0 then (out, .ok r)
      else
        let (out1, res) := foreach_entries cb rest
        (out ++ out1, res)

/-- Modelled from the spec: `git_config_get_multivar_foreach` is not under
src/. It enumerates `get_all` of the key, keeps the entries whose value passes
the optional regex, and calls the callback on each; it reports NotFound when
no entry is selected. A failure is returned as the `int` of the error. -/
def git_config_get_multivar_foreach (w : World) (cfg : git_config) (name : String)
    (regexp : Option String) (cb : config_entry → String × Except Exit Int) :
    String × Except Exit Int :=
  match git_config__normalize_name name with
  | .error e => ("", .ok e.toInt)
  | .ok key =>
    match compile_filter regexp with
    | .error e => ("", .ok e.toInt)
    | .ok filter =>
      match (get_all key (cfg.view w)).filter (passes filter) with
      | [] => ("", .ok git_error_code.GIT_ENOTFOUND.toInt)
      | e :: rest => foreach_entries cb (e :: rest)

/-- Modelled from the spec: `git_config_set_multivar` is not under src/. It is
`set_multivar`: `replace_matching` with the given regex on the writable layer
(the layer of highest precedence), persisted before returning. A snapshot is
read-only. -/
def git_config_set_multivar (w : World) (cfg : git_config) (name regexp value : String) :
    Except git_error_code World :=
  match cfg with
  | .snapshot _ => .error .GIT_ERROR
  | .live [] => .error .GIT_ERROR
  | .live (l :: _) =>
    match git_config__normalize_name name with
    | .error e => .error e
    | .ok key =>
      match regcomp regexp with
      | .error e => .error e
      | .ok preg => .ok (w.write l.path (replace_matching key name value preg (w.read l.path)))

/-- Modelled from the spec: `git_config_set_string` is not under src/. It is
`set_single`: `replace_matching` without a regex on the writable layer. -/
def git_config_set_string (w : World) (cfg : git_config) (name value : String) :
    Except git_error_code World :=
  match cfg with
  | .snapshot _ => .error .GIT_ERROR
  | .live [] => .error .GIT_ERROR
  | .live (l :: _) =>
    match git_config__normalize_name name with
    | .error e => .error e
    | .ok key =>
      match replace_single key name value (w.read l.path) with
      | .error e => .error e
      | .ok es => .ok (w.write l.path es)

/-! ## `config_set` -/

/-- Lines 60 to 86 of `config_set`: the string `svalue` for the supplied value
`opt->p2` under the type option. Every call of `config_set` that follows
`parse_options` has a value in `opt->p2`; a `NULL` there is shown as its own
outcome. -/
def config_set_svalue (opt : config_options) : Except Exit String := do
  let p2 ← deref opt.p2
  let p1 := opt.p1.getD ""
  if opt.var_type = some .VAR_TYPE_BOOL then
    let value ← check_lg2 (git_config_parse_bool p2) "git_config_parse_bool" p1
    return bool_text value
  else if opt.var_type = some .VAR_TYPE_INT then
    let value ← check_lg2 (git_config_parse_int64 p2) "git_config_parse_int64" p1
    return PRId64 value
  else if opt.var_type = some .VAR_TYPE_BOOLORINT then
    match git_config_parse_int64 p2 with
    | .ok ivalue => return PRId64 ivalue
    | .error iresult =>
      match git_config_parse_bool p2 with
      | .ok bvalue => return bool_text bvalue
      | .error _ => check_lg2 (.error iresult) "git_config_parse_int64" p1
  else
    return p2

/-- Lines 88 to 93 of `config_set`: the regex handed to the store, `NULL`
(`none`) when there is none. -/
def config_set_regex (opt : config_options) : Option String :=
  if opt.add then some "^$"
  else if opt.replace_all ∧ opt.p3 = none then some "$"
  else opt.p3

/-- A call of `config_set` into the store, with its arguments. -/
inductive store_call where
  | set_multivar (name : String) (regexp : String) (value : String)
  | set_string (name : String) (value : String)
  deriving DecidableEq, Repr

/-- The store call `config_set` makes (lines 94 to 97), when the coercion of
the supplied value lets it reach the call. -/
def config_set_call (opt : config_options) : Except Exit store_call := do
  let svalue ← config_set_svalue opt
  let p1 ← deref opt.p1
  match config_set_regex opt with
  | some regex => return .set_multivar p1 regex svalue
  | none => return .set_string p1 svalue

/-- Running a store call on a configuration, under `check_lg2`. -/
def store_call.run (w : World) (config : git_config) : store_call → Except Exit World
  | .set_multivar name regexp value =>
    check_lg2 (git_config_set_multivar w config name regexp value) "git_config_set_multivar" name
  | .set_string name value =>
    check_lg2 (git_config_set_string w config name value) "git_config_set_string" name

/-- The function `config_set` of `config.c`: the new state of the files and
the returned 0, or the way the process ended. -/
def config_set (opt : config_options) (config : git_config) (w : World) :
    Except Exit (World × Int) := do
  let call ← config_set_call opt
  let w1 ← call.run w config
  return (w1, 0)

/-! ## `config_get`, `config_get_all_cb`, `config_get_all` -/

/-- The function `config_get` of `config.c`: the text written to the standard
output, and the returned value or the way the process ended. The home
directory that `git_config_parse_path` consults is that of `w`. Under
`--path`, once the path is expanded, line 153 hands the `git_buf` struct
itself to `printf`: the outcome there is `Exit.undefined_printf`. -/
def config_get (opt : config_options) (config : git_config) (w : World) :
    String × Except Exit Int :=
  match opt.p1 with
  | none => ("", .error Exit.null_argument)
  | some p1 =>
    if opt.var_type = some .VAR_TYPE_BOOL then
      match git_config_get_bool w config p1 with
      | .error .GIT_ENOTFOUND => ("", .ok 1)
      | .ok value => (bool_text value ++ "\n", .ok 0)
      | .error result => ("", .error (Exit.lg2 result "git_config_get_bool" p1))
    else if opt.var_type = some .VAR_TYPE_INT then
      match git_config_get_int64 w config p1 with
      | .error .GIT_ENOTFOUND => ("", .ok 1)
      | .ok value => (PRId64 value ++ "\n", .ok 0)
      | .error result => ("", .error (Exit.lg2 result "git_config_get_int64" p1))
    else if opt.var_type = some .VAR_TYPE_BOOLORINT then
      match git_config_get_int64 w config p1 with
      | .error .GIT_ENOTFOUND => ("", .ok 1)
      | .ok ivalue => (PRId64 ivalue ++ "\n", .ok 0)
      | .error iresult =>
        match git_config_get_bool w config p1 with
        | .error .GIT_ENOTFOUND => ("", .ok 1)
        | .ok bvalue => (bool_text bvalue ++ "\n", .ok 0)
        | .error _ => ("", .error (Exit.lg2 iresult "git_config_get_int64" p1))
    else
      match git_config_get_string w config p1 with
      | .error .GIT_ENOTFOUND => ("", .ok 1)
      | .ok value =>
        if opt.var_type = some .VAR_TYPE_PATH then
          match git_config_parse_path w.home value with
          | .ok _ => ("", .error Exit.undefined_printf)
          | .error result => ("", .error (Exit.lg2 result "git_config_parse_path" p1))
        else (value ++ "\n", .ok 0)
      | .error result => ("", .error (Exit.lg2 result "git_config_get_string" p1))

/-- The callback `config_get_all_cb` of `config.c` for one entry: the text
written, and the returned value or the way the process ended. Under `--path`,
once the path is expanded, line 202 hands the `git_buf` struct itself to
`printf`: the outcome there is `Exit.undefined_printf`. -/
def config_get_all_cb (opt : config_options) (w : World) (entry : config_entry) :
    String × Except Exit Int :=
  let p1 := opt.p1.getD ""
  if opt.var_type = some .VAR_TYPE_BOOL then
    match git_config_parse_bool entry.value with
    | .ok value => (bool_text value ++ "\n", .ok 0)
    | .error result => ("", .error (Exit.lg2 result "git_config_parse_bool" p1))
  else if opt.var_type = some .VAR_TYPE_INT then
    match git_config_parse_int64 entry.value with
    | .ok value => (PRId64 value ++ "\n", .ok 0)
    | .error result => ("", .error (Exit.lg2 result "git_config_parse_int64" p1))
  else if opt.var_type = some .VAR_TYPE_BOOLORINT then
    match git_config_parse_int64 entry.value with
    | .ok ivalue => (PRId64 ivalue ++ "\n", .ok 0)
    | .error iresult =>
      match git_config_parse_bool entry.value with
      | .ok bvalue => (bool_text bvalue ++ "\n", .ok 0)
      | .error _ => ("", .error (Exit.lg2 iresult "git_config_parse_int64" p1))
  else if opt.var_type = some .VAR_TYPE_PATH then
    match git_config_parse_path w.home entry.value with
    | .ok _ => ("", .error Exit.undefined_printf)
    | .error result => ("", .error (Exit.lg2 result "git_config_parse_path" p1))
  else (entry.value ++ "\n", .ok 0)

/-- The function `config_get_all` of `config.c`: it returns what the multivar
enumeration returns. -/
def config_get_all (opt : config_options) (config : git_config) (w : World) :
    String × Except Exit Int :=
  match opt.p1 with
  | none => ("", .error Exit.null_argument)
  | some p1 => git_config_get_multivar_foreach w config p1 opt.p2 (config_get_all_cb opt w)

/-! ## `prepare_config`, `do_config`, `main` -/

/-- The condition of line 268 of `prepare_config`: the intents served from a
snapshot. -/
def wants_snapshot (opt : config_options) : Bool :=
  (opt.def_ && opt.p2 == none) || opt.get || opt.get_all || opt.get_regexp
    || opt.get_urlmatch || opt.list

/-- Lines 223 to 266 of `prepare_config`: the configuration `fconfig` built
for the level selector. -/
def prepare_fconfig (opt : config_options) (w : World) : Except Exit git_config := do
  if opt.level = some .GIT_CONFIG_LEVEL_SYSTEM then
    let config_file ← check_lg2 (git_config_find_system w) "git_config_find_system" ""
    let fconfig ← check_lg2 git_config_new "git_config_new" ""
    check_lg2 (git_config_add_file_ondisk fconfig config_file .GIT_CONFIG_LEVEL_SYSTEM true)
      "git_config_add_file_ondisk" config_file
  else if opt.level = some .GIT_CONFIG_LEVEL_GLOBAL then
    let config_file ← check_lg2 (git_config_find_global w) "git_config_find_global" ""
    let fconfig ← check_lg2 git_config_new "git_config_new" ""
    let fconfig ← check_lg2
      (git_config_add_file_ondisk fconfig config_file .GIT_CONFIG_LEVEL_GLOBAL true)
      "git_config_add_file_ondisk" config_file
    match git_config_find_xdg w with
    | .ok config_file =>
      let fconfig ← check_lg2 git_config_new "git_config_new" ""
      check_lg2 (git_config_add_file_ondisk fconfig config_file .GIT_CONFIG_LEVEL_GLOBAL true)
        "git_config_add_file_ondisk" config_file
    | .error result =>
      if result ≠ .GIT_ENOTFOUND then check_lg2 (.error result) "git_config_find_xdg" ""
      else return fconfig
  else if opt.level = some .GIT_CONFIG_LEVEL_APP then
    let fconfig ← check_lg2 git_config_new "git_config_new" ""
    let file ← deref opt.file
    check_lg2 (git_config_add_file_ondisk fconfig file .GIT_CONFIG_LEVEL_GLOBAL true)
      "git_config_add_file_ondisk" file
  else if opt.level = some .GIT_CONFIG_LEVEL_LOCAL then
    let root ← check_lg2 (git_repository_discover w) "git_repository_discover" ""
    check_lg2 (git_repository_open w root) "git_repository_open" ""
    let config_file := root ++ (if root.data.getLast? = some '/' then "" else "/") ++ "config"
    let fconfig ← check_lg2 git_config_new "git_config_new" ""
    check_lg2 (git_config_add_file_ondisk fconfig config_file .GIT_CONFIG_LEVEL_GLOBAL true)
      "git_config_add_file_ondisk" config_file
  else
    match git_repository_discover w with
    | .ok root => do
      check_lg2 (git_repository_open w root) "git_repository_open" ""
      check_lg2 (git_repository_config w root) "git_repository_config" ""
    | .error _ => check_lg2 (git_config_open_default w) "git_config_open_default" ""

/-- The function `prepare_config` of `config.c`: the handle `*config` that
`do_config` works on. -/
def prepare_config (opt : config_options) (w : World) : Except Exit git_config := do
  let fconfig ← prepare_fconfig opt w
  if wants_snapshot opt then
    check_lg2 (git_config_snapshot w fconfig) "git_config_snapshot" ""
  else
    return fconfig

/-- The function of `config.c` that `do_config` hands the command to. -/
inductive handler where
  | set
  | get
  | get_all
  | unsupported
  deriving DecidableEq, Repr

/-- The chain of tests of lines 280 to 287 of `do_config`. -/
def select_handler (opt : config_options) : handler :=
  if (opt.def_ ∧ opt.p2 ≠ none) ∨ opt.add ∨ opt.replace_all then .set
  else if opt.get ∨ (opt.def_ ∧ opt.p2 = none) then .get
  else if opt.get_all then .get_all
  else .unsupported

/-- What a command leaves behind: the text on the standard output, the state
of the files, and the value returned to `main` or the way the process ended. -/
structure Run where
  out : String
  world : World
  res : Except Exit Int
  deriving DecidableEq, Repr

/-- The status the process ends with: the low eight bits of the value `main`
returns, or the status of the call that ended the process. -/
def Run.status (r : Run) : Int :=
  match r.res with
  | .ok result => result % 256
  | .error e => e.status

/-- The call `do_config` makes on the prepared handle `config`: one of the
three `return` statements with a call, or the final `return 129`. -/
def run_handler (opt : config_options) (config : git_config) (w : World) : handler → Run
  | .set =>
    match config_set opt config w with
    | .ok (w1, result) => { out := "", world := w1, res := .ok result }
    | .error e => { out := "", world := w, res := .error e }
  | .get =>
    let (out, res) := config_get opt config w
    { out := out, world := w, res := res }
  | .get_all =>
    let (out, res) := config_get_all opt config w
    { out := out, world := w, res := res }
  | .unsupported => { out := "", world := w, res := .ok 129 }

/-- The function `do_config` of `config.c`. -/
def do_config (opt : config_options) (w : World) : Run :=
  match prepare_config opt w with
  | .error e => { out := "", world := w, res := .error e }
  | .ok config => run_handler opt config w (select_handler opt)

/-- The function `main` of `config.c`: `parse_options`, then `do_config`. -/
def main (argv : List String) (w : World) : Run :=
  match parse_options argv with
  | .error e => { out := "", world := w, res := .error e }
  | .ok (opt, _) => do_config opt w

/-! ## The CLI surface, as the specification declares it -/

/-- The intents of the CLI surface that are selected by a flag. -/
inductive Intent where
  | add | replace_all | get | get_all | get_regexp | get_urlmatch
  | unset | unset_all | rename_section | remove_section | list
  deriving DecidableEq, Repr

/-- The flag spellings of the CLI surface and the intent each one selects. -/
def flag_intent (a : String) : Option Intent :=
  if a = "--add" then some .add
  else if a = "--replace-all" then some .replace_all
  else if a = "--get" then some .get
  else if a = "--get-all" then some .get_all
  else if a = "--get-regexp" then some .get_regexp
  else if a = "--get-urlmatch" then some .get_urlmatch
  else if a = "--unset" then some .unset
  else if a = "--unset-all" then some .unset_all
  else if a = "--rename-section" then some .rename_section
  else if a = "--remove-section" then some .remove_section
  else if a = "-l" ∨ a = "--list" then some .list
  else none

/-- The field of `config_options` that records an intent. -/
def Intent.mark (i : Intent) (o : config_options) : config_options :=
  match i with
  | .add => { o with add := true }
  | .replace_all => { o with replace_all := true }
  | .get => { o with get := true }
  | .get_all => { o with get_all := true }
  | .get_regexp => { o with get_regexp := true }
  | .get_urlmatch => { o with get_urlmatch := true }
  | .unset => { o with unset := true }
  | .unset_all => { o with unset_all := true }
  | .rename_section => { o with rename_section := true }
  | .remove_section => { o with remove_section := true }
  | .list => { o with list := true }

/-- The part of the options that the three leading blocks leave alone. -/
def intent_part (o : config_options) : config_options :=
  { o with level := none, file := none, var_type := none, null := false }

/-- The number of positional parameters the CLI surface declares for each
intent selected by a flag. -/
def Intent.arity : Intent → Nat → Prop
  | .add, n => n = 2
  | .replace_all, n => n = 2 ∨ n = 3
  | .get, n => n = 1 ∨ n = 2
  | .get_all, n => n = 1 ∨ n = 2
  | .get_regexp, n => n = 1 ∨ n = 2
  | .get_urlmatch, n => n = 2
  | .unset, n => n = 1 ∨ n = 2
  | .unset_all, n => n = 1 ∨ n = 2
  | .rename_section, n => n = 2
  | .remove_section, n => n = 1
  | .list, n => n = 0

instance Intent.decidable_arity (i : Intent) (n : Nat) : Decidable (i.arity n) := by
  cases i <;> unfold Intent.arity <;> infer_instance

/-- The number of positional parameters the CLI surface declares for the
default command `<key> [<value> [<regex>]]`, the key included. -/
def default_arity (n : Nat) : Prop := 1 ≤ n ∧ n ≤ 3

instance decidable_default_arity (n : Nat) : Decidable (default_arity n) := by
  unfold default_arity; infer_instance

/-! ## Sample states -/

/-- A state with a global file that binds `server.host` to the empty string
and `feature.flag` to `yes`, and with no XDG file. -/
def sample_world : World :=
  { files := [("/home/u/.gitconfig",
      [{ name := "server.host", value := "" }, { name := "feature.flag", value := "yes" }])],
    home := some "/home/u",
    global_file := .ok "/home/u/.gitconfig" }

/-- The state `sample_world` with an XDG file found as well. -/
def sample_world_xdg : World :=
  { sample_world with
    files := ("/home/u/.config/git/config", [{ name := "core.editor", value := "vi" }])
      :: sample_world.files,
    xdg_file := .ok "/home/u/.config/git/config" }

/-- A state whose global file has no entry yet. -/
def fresh_world : World :=
  { files := [("/home/u/.gitconfig", [])],
    home := some "/home/u",
    global_file := .ok "/home/u/.gitconfig" }

/-- The number of lines of a text: the number of newline characters in it. -/
def line_count (s : String) : Nat := s.data.count '\n'

/-- A state whose global file binds `core.note` to a value of two lines. -/
def note_world : World :=
  { files := [("/home/u/.gitconfig", [{ name := "core.note", value := "a\nb" }])],
    home := some "/home/u",
    global_file := .ok "/home/u/.gitconfig" }

/-- The value string of a store call. -/
def store_call.value : store_call → String
  | .set_multivar _ _ value => value
  | .set_string _ value => value

/-! ## Lemmas on `parse_options` -/

theorem parse_intent_eq (argv : List String) (o : config_options) (pos : Nat) :
    parse_intent argv o pos =
      if argv.length > pos then
        match flag_intent (argv.getD pos "") with
        | some i => .ok (i.mark o, pos + 1)
        | none =>
          if (argv.getD pos "").data.head? = some '-' then
            usage (some "Unsupported argument") (some (argv.getD pos ""))
          else .ok ({ o with def_ := true }, pos)
      else .ok (o, pos) := by
  unfold parse_intent flag_intent
  by_cases hlen : argv.length > pos
  · simp only [if_pos hlen]
    generalize argv.getD pos "" = a
    by_cases h0 : a = "--add"
    · simp only [if_pos h0]; rfl
    simp only [if_neg h0]
    by_cases h1 : a = "--replace-all"
    · simp only [if_pos h1]; rfl
    simp only [if_neg h1]
    by_cases h2 : a = "--get"
    · simp only [if_pos h2]; rfl
    simp only [if_neg h2]
    by_cases h3 : a = "--get-all"
    · simp only [if_pos h3]; rfl
    simp only [if_neg h3]
    by_cases h4 : a = "--get-regexp"
    · simp only [if_pos h4]; rfl
    simp only [if_neg h4]
    by_cases h5 : a = "--get-urlmatch"
    · simp only [if_pos h5]; rfl
    simp only [if_neg h5]
    by_cases h6 : a = "--unset"
    · simp only [if_pos h6]; rfl
    simp only [if_neg h6]
    by_cases h7 : a = "--unset-all"
    · simp only [if_pos h7]; rfl
    simp only [if_neg h7]
    by_cases h8 : a = "--rename-section"
    · simp only [if_pos h8]; rfl
    simp only [if_neg h8]
    by_cases h9 : a = "--remove-section"
    · simp only [if_pos h9]; rfl
    simp only [if_neg h9]
    by_cases hl : a = "-l" ∨ a = "--list"
    · simp only [if_pos hl]; rfl
    simp only [if_neg hl]
  · simp only [if_neg hlen]

theorem parse_level_keeps (argv : List String) (o o1 : config_options) (pos pos1 : Nat)
    (h : parse_level argv o pos = .ok (o1, pos1)) : intent_part o1 = intent_part o := by
  unfold parse_level at h
  by_cases hlen : argv.length > pos
  · rw [if_pos hlen] at h
    dsimp only at h
    by_cases h1 : argv.getD pos "" = "--local"
    · rw [if_pos h1] at h; cases h; rfl
    rw [if_neg h1] at h
    by_cases h2 : argv.getD pos "" = "--global"
    · rw [if_pos h2] at h; cases h; rfl
    rw [if_neg h2] at h
    by_cases h3 : argv.getD pos "" = "--system"
    · rw [if_pos h3] at h; cases h; rfl
    rw [if_neg h3] at h
    cases hf : match_str_arg argv pos "-f" with
    | missing_value => rw [hf] at h; cases h
    | found out p => rw [hf] at h; cases h; rfl
    | no_match =>
      rw [hf] at h
      cases hg : match_str_arg argv pos "--file" with
      | missing_value => rw [hg] at h; cases h
      | found out p => rw [hg] at h; cases h; rfl
      | no_match => rw [hg] at h; cases h; rfl
  · rw [if_neg hlen] at h; cases h; rfl

theorem parse_type_keeps (argv : List String) (o : config_options) (pos : Nat) :
    intent_part (parse_type argv o pos).1 = intent_part o := by
  unfold parse_type
  dsimp only
  split_ifs <;> rfl

theorem parse_null_keeps (argv : List String) (o : config_options) (pos : Nat) :
    intent_part (parse_null argv o pos).1 = intent_part o := by
  unfold parse_null
  dsimp only
  split_ifs <;> rfl

theorem parse_head_keeps (argv : List String) (o : config_options) (pos : Nat)
    (h : parse_head argv = .ok (o, pos)) : intent_part o = {} := by
  unfold parse_head at h
  cases hl : parse_level argv {} 1 with
  | error e => simp [hl, bind, Except.bind] at h
  | ok r =>
    obtain ⟨o1, pos1⟩ := r
    simp [hl, bind, Except.bind, pure, Except.pure] at h
    have h1 := parse_level_keeps argv {} o1 1 pos1 hl
    have h2 := parse_type_keeps argv o1 pos1
    have h3 := parse_null_keeps argv (parse_type argv o1 pos1).1 (parse_type argv o1 pos1).2
    have ho : o = (parse_null argv (parse_type argv o1 pos1).1 (parse_type argv o1 pos1).2).1 := by
      rw [h]
    rw [ho, h3, h2, h1]; rfl

theorem collect_params_full (l : List String) (n : Nat) (o : config_options) (hn : 3 ≤ n) :
    collect_params l n o = (o, n + l.length) := by
  induction l generalizing n with
  | nil => simp [collect_params]
  | cons a rest ih =>
    have h1 : ¬ (n + 1 = 1) := by omega
    have h2 : ¬ (n + 1 = 2) := by omega
    have h3 : ¬ (n + 1 = 3) := by omega
    simp only [collect_params, h1, h2, h3, if_false]
    rw [ih (n + 1) (by omega)]
    simp; omega

theorem collect_params_zero (l : List String) (o : config_options)
    (h1 : o.p1 = none) (h2 : o.p2 = none) (h3 : o.p3 = none) :
    collect_params l 0 o = ({ o with p1 := l[0]?, p2 := l[1]?, p3 := l[2]? }, l.length) := by
  obtain ⟨lv, fl, vt, nl, d, ad, ra, g, ga, gr, gu, un, ua, rs, rm, ls, q1, q2, q3⟩ := o
  simp only at h1 h2 h3
  subst h1 h2 h3
  match l with
  | [] => simp [collect_params]
  | [a] => simp [collect_params]
  | [a, b] => simp [collect_params]
  | [a, b, c] => simp [collect_params]
  | a :: b :: c :: d :: rest =>
    simp only [collect_params]
    simp
    rw [collect_params_full _ 4 _ (by omega)]
    simp; omega

theorem head_fields (o : config_options) (h : intent_part o = {}) :
    o = { level := o.level, file := o.file, var_type := o.var_type, null := o.null } := by
  obtain ⟨lv, fl, vt, nl, d, ad, ra, g, ga, gr, gu, un, ua, rs, rm, ls, q1, q2, q3⟩ := o
  simp only [intent_part, config_options.mk.injEq] at h
  simp only [config_options.mk.injEq]
  tauto

theorem check_arg_count_flag (i : Intent) (o : config_options) (n : Nat)
    (p1 p2 p3 : Option String) (h : intent_part o = {}) :
    check_arg_count { i.mark o with p1 := p1, p2 := p2, p3 := p3 } n =
      if i.arity n then .ok () else wrong_arg_count := by
  rw [head_fields o h]
  cases i <;>
    simp [check_arg_count, Intent.mark, Intent.arity, bind, Except.bind, pure, Except.pure,
      wrong_arg_count, usage] <;> split_ifs <;> first | rfl | omega

theorem check_arg_count_bare (o : config_options) (n : Nat)
    (p1 p2 p3 : Option String) (h : intent_part o = {}) :
    check_arg_count { o with def_ := true, p1 := p1, p2 := p2, p3 := p3 } n =
      if default_arity n then .ok () else wrong_arg_count := by
  rw [head_fields o h]
  simp [check_arg_count, default_arity, bind, Except.bind, pure, Except.pure,
      wrong_arg_count, usage]
  split_ifs <;> first | rfl | omega

theorem check_arg_count_none (o : config_options) (n : Nat) (h : intent_part o = {}) :
    check_arg_count o n = .ok () := by
  rw [head_fields o h]
  simp [check_arg_count, bind, Except.bind, pure, Except.pure]

theorem head_params (o : config_options) (h : intent_part o = {}) :
    o.p1 = none ∧ o.p2 = none ∧ o.p3 = none := by
  rw [head_fields o h]; exact ⟨rfl, rfl, rfl⟩

theorem mark_params (i : Intent) (o : config_options) :
    (i.mark o).p1 = o.p1 ∧ (i.mark o).p2 = o.p2 ∧ (i.mark o).p3 = o.p3 := by
  cases i <;> exact ⟨rfl, rfl, rfl⟩

theorem parse_options_flag (argv : List String) (o3 : config_options) (pos3 : Nat)
    (a : String) (i : Intent) (h : parse_head argv = .ok (o3, pos3))
    (ha : argv[pos3]? = some a) (hi : flag_intent a = some i) :
    parse_options argv =
      if i.arity (argv.length - (pos3 + 1)) then
        .ok ({ i.mark o3 with p1 := argv[pos3 + 1]?, p2 := argv[pos3 + 2]?,
                              p3 := argv[pos3 + 3]? }, argv.length)
      else wrong_arg_count := by
  have hk := parse_head_keeps argv o3 pos3 h
  have hlen : argv.length > pos3 := by
    rcases Nat.lt_or_ge pos3 argv.length with hlt | hge
    · exact hlt
    · rw [List.getElem?_eq_none hge] at ha; cases ha
  have hd : argv.getD pos3 "" = a := by simp [List.getD, ha]
  obtain ⟨q1, q2, q3⟩ := head_params o3 hk
  obtain ⟨m1, m2, m3⟩ := mark_params i o3
  unfold parse_options
  simp only [h, bind, Except.bind, parse_intent_eq, if_pos hlen, hd, hi]
  rw [collect_params_zero _ _ (m1.trans q1) (m2.trans q2) (m3.trans q3)]
  simp only [List.getElem?_drop, List.length_drop]
  have hc := check_arg_count_flag i o3 (argv.length - (pos3 + 1)) argv[pos3 + 1]?
    argv[pos3 + 2]? argv[pos3 + 3]? hk
  have e1 : pos3 + 1 + 0 = pos3 + 1 := rfl
  have e2 : pos3 + 1 + 1 = pos3 + 2 := rfl
  have e3 : pos3 + 1 + 2 = pos3 + 3 := rfl
  rw [e1, e2, e3, hc]
  split_ifs
  · simp only [pure, Except.pure]
    rw [Nat.max_eq_right (by omega)]
  · rfl

theorem parse_options_bare (argv : List String) (o3 : config_options) (pos3 : Nat)
    (a : String) (h : parse_head argv = .ok (o3, pos3))
    (ha : argv[pos3]? = some a) (hi : flag_intent a = none) (hd : a.data.head? ≠ some '-') :
    parse_options argv =
      if default_arity (argv.length - pos3) then
        .ok ({ o3 with def_ := true, p1 := argv[pos3]?, p2 := argv[pos3 + 1]?,
                       p3 := argv[pos3 + 2]? }, argv.length)
      else wrong_arg_count := by
  have hk := parse_head_keeps argv o3 pos3 h
  have hlen : argv.length > pos3 := by
    rcases Nat.lt_or_ge pos3 argv.length with hlt | hge
    · exact hlt
    · rw [List.getElem?_eq_none hge] at ha; cases ha
  have hg : argv.getD pos3 "" = a := by simp [List.getD, ha]
  obtain ⟨q1, q2, q3⟩ := head_params o3 hk
  unfold parse_options
  simp only [h, bind, Except.bind, parse_intent_eq, if_pos hlen, hg, hi, if_neg hd]
  rw [collect_params_zero _ { o3 with def_ := true } q1 q2 q3]
  simp only [List.getElem?_drop, List.length_drop]
  have hc := check_arg_count_bare o3 (argv.length - pos3) argv[pos3]?
    argv[pos3 + 1]? argv[pos3 + 2]? hk
  have e1 : pos3 + 0 = pos3 := rfl
  rw [e1, hc]
  split_ifs
  · simp only [pure, Except.pure]
    rw [Nat.max_eq_right (by omega)]
  · rfl

theorem parse_options_dash (argv : List String) (o3 : config_options) (pos3 : Nat)
    (a : String) (h : parse_head argv = .ok (o3, pos3))
    (ha : argv[pos3]? = some a) (hi : flag_intent a = none) (hd : a.data.head? = some '-') :
    parse_options argv = usage (some "Unsupported argument") (some a) := by
  have hlen : argv.length > pos3 := by
    rcases Nat.lt_or_ge pos3 argv.length with hlt | hge
    · exact hlt
    · rw [List.getElem?_eq_none hge] at ha; cases ha
  have hg : argv.getD pos3 "" = a := by simp [List.getD, ha]
  unfold parse_options
  simp only [h, bind, Except.bind, parse_intent_eq, if_pos hlen, hg, hi, if_pos hd]
  rfl

theorem parse_options_end (argv : List String) (o3 : config_options) (pos3 : Nat)
    (h : parse_head argv = .ok (o3, pos3)) (ha : argv[pos3]? = none) :
    parse_options argv = .ok (o3, max pos3 argv.length) := by
  have hk := parse_head_keeps argv o3 pos3 h
  have hlen : ¬ argv.length > pos3 := by
    intro hlt
    rw [List.getElem?_eq_getElem hlt] at ha; cases ha
  unfold parse_options
  simp only [h, bind, Except.bind, parse_intent_eq, if_neg hlen]
  rw [List.drop_eq_nil_of_le (by omega)]
  simp only [collect_params, check_arg_count_none o3 0 hk, pure, Except.pure]

theorem getElem?_isSome_iff (l : List String) (n : Nat) : l[n]?.isSome = true ↔ n < l.length := by
  rcases Nat.lt_or_ge n l.length with h | h
  · simp [List.getElem?_eq_getElem h, h]
  · simp [List.getElem?_eq_none h]; omega

theorem parse_options_head (argv : List String) (opt : config_options) (pos : Nat)
    (h : parse_options argv = .ok (opt, pos)) :
    ∃ o3 pos3, parse_head argv = .ok (o3, pos3) := by
  cases hh : parse_head argv with
  | error e =>
    unfold parse_options at h
    simp [hh, bind, Except.bind] at h
  | ok r => exact ⟨r.1, r.2, rfl⟩

/-- The options of an accepted command line: the leading options `o3` with
nothing else set, or one flag intent with a parameter count of its arity, or
the default intent with one to three parameters. -/
theorem parse_options_shape (argv : List String) (opt : config_options) (pos : Nat)
    (h : parse_options argv = .ok (opt, pos)) :
    ∃ o3 : config_options, intent_part o3 = {} ∧
      (opt = o3 ∨
       (∃ (i : Intent) (n : Nat) (p1 p2 p3 : Option String), i.arity n ∧ opt = { i.mark o3 with p1 := p1, p2 := p2, p3 := p3 } ∧
          (p1.isSome = true ↔ 1 ≤ n) ∧ (p2.isSome = true ↔ 2 ≤ n) ∧ (p3.isSome = true ↔ 3 ≤ n)) ∨
       (∃ (n : Nat) (p1 p2 p3 : Option String), default_arity n ∧
          opt = { o3 with def_ := true, p1 := p1, p2 := p2, p3 := p3 } ∧
          (p1.isSome = true ↔ 1 ≤ n) ∧ (p2.isSome = true ↔ 2 ≤ n) ∧ (p3.isSome = true ↔ 3 ≤ n))) := by
  obtain ⟨o3, pos3, hh⟩ := parse_options_head argv opt pos h
  refine ⟨o3, parse_head_keeps argv o3 pos3 hh, ?_⟩
  cases ha : argv[pos3]? with
  | none =>
    rw [parse_options_end argv o3 pos3 hh ha] at h
    left; cases h; rfl
  | some a =>
    cases hi : flag_intent a with
    | some i =>
      rw [parse_options_flag argv o3 pos3 a i hh ha hi] at h
      split_ifs at h with har
      · right; left
        refine ⟨i, argv.length - (pos3 + 1), argv[pos3 + 1]?, argv[pos3 + 2]?, argv[pos3 + 3]?,
          har, ?_, ?_, ?_, ?_⟩
        · cases h; rfl
        · rw [getElem?_isSome_iff]; omega
        · rw [getElem?_isSome_iff]; omega
        · rw [getElem?_isSome_iff]; omega
      · cases h
    | none =>
      by_cases hd : a.data.head? = some '-'
      · rw [parse_options_dash argv o3 pos3 a hh ha hi hd] at h; cases h
      · rw [parse_options_bare argv o3 pos3 a hh ha hi hd] at h
        split_ifs at h with har
        · right; right
          refine ⟨argv.length - pos3, argv[pos3]?, argv[pos3 + 1]?, argv[pos3 + 2]?,
            har, ?_, ?_, ?_, ?_⟩
          · cases h; rfl
          · rw [getElem?_isSome_iff]; omega
          · rw [getElem?_isSome_iff]; omega
          · rw [getElem?_isSome_iff]; omega
        · cases h

theorem regcomp_add : regcomp "^$" = .ok { anchor_start := true, body := [], anchor_end := true } := by
  decide

theorem regcomp_all : regcomp "$" = .ok { anchor_start := false, body := [], anchor_end := true } := by
  decide

theorem regexec_add (v : String) :
    regexec { anchor_start := true, body := [], anchor_end := true } v = decide (v = "") := by
  simp [regexec]
  constructor
  · intro h; cases v; simp_all
  · intro h; simp [h]

theorem regexec_all (v : String) :
    regexec { anchor_start := false, body := [], anchor_end := true } v = true := by
  simp [regexec]

/-- With the pattern of the add intent, `replace_matching` appends as long as
no existing value of the key is the empty string. -/
theorem replace_matching_add (key name value : String) (es : List config_entry)
    (h : ∀ e ∈ es, key_matches key e = true → e.value ≠ "") :
    replace_matching key name value { anchor_start := true, body := [], anchor_end := true } es
      = es ++ [{ name := name, value := value }] := by
  unfold replace_matching
  rw [if_neg]
  intro hany
  rw [List.any_eq_true] at hany
  obtain ⟨e, he, hs⟩ := hany
  unfold selected at hs
  rw [Bool.and_eq_true, regexec_add] at hs
  exact h e he hs.1 (of_decide_eq_true hs.2)

/-! ## Properties of `config_set` -/

/-- C1: the add intent hands the store the fixed pattern `^$`, and that
pattern matches a value exactly when the value is the empty string: on a file
where `server.host` is bound to the empty string,
`config --global --add server.host b` replaces that value by `b` instead of
appending `b` after it, and two adds on a fresh file, of the empty string and
then of `b`, leave the single value `b`. -/
theorem add_pattern_replaces_empty_value :
    config_set_call { add := true, p1 := some "server.host", p2 := some "b" }
      = .ok (.set_multivar "server.host" "^$" "b") ∧
    (∀ v : String, (regcomp "^$").map (fun preg => regexec preg v) = .ok (decide (v = ""))) ∧
    (main ["config", "--global", "--get-all", "server.host"] sample_world).out = "\n" ∧
    main ["config", "--global", "--add", "server.host", "b"] sample_world =
      { out := "",
        world := { sample_world with files := [("/home/u/.gitconfig",
          [{ name := "server.host", value := "b" }, { name := "feature.flag", value := "yes" }])] },
        res := .ok 0 } ∧
    (main ["config", "--global", "--get-all", "server.host"]
      (main ["config", "--global", "--add", "server.host", "b"] sample_world).world).out = "b\n" ∧
    (main ["config", "--global", "--add", "server.host", "b"]
      (main ["config", "--global", "--add", "server.host", ""] fresh_world).world).world.read
        "/home/u/.gitconfig" = [{ name := "server.host", value := "b" }] := by
  refine ⟨by decide, ?_, by decide, by decide, by decide, by decide⟩
  intro v
  rw [regcomp_add]
  simp only [Except.map, regexec_add]

theorem config_set_call_eq (opt : config_options) (call : store_call)
    (h : config_set_call opt = .ok call) :
    ∃ name value, opt.p1 = some name ∧ config_set_svalue opt = .ok value ∧
      call = (match config_set_regex opt with
        | some regex => store_call.set_multivar name regex value
        | none => store_call.set_string name value) := by
  unfold config_set_call at h
  cases hs : config_set_svalue opt with
  | error e => simp [hs, bind, Except.bind] at h
  | ok value =>
    cases h1 : opt.p1 with
    | none => simp [hs, h1, deref, bind, Except.bind] at h
    | some name =>
      refine ⟨name, value, rfl, rfl, ?_⟩
      simp only [hs, h1, deref, bind, Except.bind] at h
      cases hr : config_set_regex opt with
      | none => simp only [hr, pure, Except.pure] at h; cases h; rfl
      | some r => simp only [hr, pure, Except.pure] at h; cases h; rfl

/-- The regex `config_set` chooses on an accepted command line that
`do_config` hands to it, and the store call that goes with it. -/
theorem config_set_regex_cases (argv : List String) (opt : config_options) (pos : Nat)
    (h : parse_options argv = .ok (opt, pos)) (hs : select_handler opt = .set) :
    (opt.replace_all = true → opt.p3 = none → config_set_regex opt = some "$") ∧
    (∀ v : String, (regcomp "$").map (fun preg => regexec preg v) = .ok true) ∧
    (∀ r, opt.p3 = some r →
      (opt.replace_all = true ∨ opt.def_ = true) ∧ config_set_regex opt = some r) ∧
    (config_set_regex opt = none ↔ opt.def_ = true ∧ opt.p3 = none) ∧
    (∀ call, config_set_call opt = .ok call →
      ((∃ name value, call = .set_string name value) ↔ opt.def_ = true ∧ opt.p3 = none) ∧
      (∀ regex, config_set_regex opt = some regex →
        ∃ name value, opt.p1 = some name ∧ call = .set_multivar name regex value)) := by
  have hall : ∀ v : String, (regcomp "$").map (fun preg => regexec preg v) = .ok true := by
    intro v; rw [regcomp_all]; simp [Except.map, regexec_all]
  have key : (opt.replace_all = true → opt.p3 = none → config_set_regex opt = some "$") ∧
      (∀ r, opt.p3 = some r →
        (opt.replace_all = true ∨ opt.def_ = true) ∧ config_set_regex opt = some r) ∧
      (config_set_regex opt = none ↔ opt.def_ = true ∧ opt.p3 = none) := by
    obtain ⟨o3, hk, hshape⟩ := parse_options_shape argv opt pos h
    rw [head_fields o3 hk] at hshape
    rcases hshape with rfl | ⟨i, n, p1, p2, p3, har, rfl, h1, h2, h3⟩ |
      ⟨n, p1, p2, p3, har, rfl, h1, h2, h3⟩
    · simp [select_handler] at hs
    · cases i <;> simp [select_handler, Intent.mark] at hs
      · -- add
        simp only [Intent.arity] at har
        have hp3 : p3 = none := by
          cases p3 with
          | none => rfl
          | some x => have := h3.mp rfl; omega
        subst hp3
        simp [config_set_regex, Intent.mark]
      · -- replace_all
        cases p3 <;> simp [config_set_regex, Intent.mark]
    · cases p3 <;> simp [config_set_regex]
  refine ⟨key.1, hall, key.2.1, key.2.2, ?_⟩
  intro call hc
  obtain ⟨name, value, hn, -, hcall⟩ := config_set_call_eq opt call hc
  constructor
  · rw [← key.2.2]
    cases hr : config_set_regex opt with
    | none => rw [hr] at hcall; simp [hcall]
    | some r => rw [hr] at hcall; simp [hcall]
  · intro regex hr
    rw [hr] at hcall
    exact ⟨name, value, hn, hcall⟩

/-- The function `config_set` is the store call under `check_lg2`, followed by
`return 0`, once the coercion of the supplied value has given `value`. -/
theorem config_set_eq (opt : config_options) (config : git_config) (w : World)
    (name value : String) (hn : opt.p1 = some name) (hv : config_set_svalue opt = .ok value) :
    config_set opt config w =
      (match config_set_regex opt with
        | some regex =>
          check_lg2 (git_config_set_multivar w config name regex value)
            "git_config_set_multivar" name
        | none =>
          check_lg2 (git_config_set_string w config name value)
            "git_config_set_string" name).map (fun w1 => (w1, 0)) := by
  unfold config_set config_set_call
  simp only [hv, hn, deref, bind, Except.bind]
  cases config_set_regex opt with
  | none =>
    simp only [pure, Except.pure, store_call.run]
    cases check_lg2 (git_config_set_string w config name value) "git_config_set_string" name <;>
      rfl
  | some regex =>
    simp only [pure, Except.pure, store_call.run]
    cases check_lg2 (git_config_set_multivar w config name regex value)
      "git_config_set_multivar" name <;> rfl

/-- On an accepted command line that goes to `config_set`, `opt->p1` is set. -/
theorem set_handler_has_key (argv : List String) (opt : config_options) (pos : Nat)
    (h : parse_options argv = .ok (opt, pos)) (hs : select_handler opt = .set) :
    ∃ name, opt.p1 = some name := by
  obtain ⟨o3, hk, hshape⟩ := parse_options_shape argv opt pos h
  rw [head_fields o3 hk] at hshape
  rcases hshape with rfl | ⟨i, n, p1, p2, p3, har, rfl, h1, h2, h3⟩ |
    ⟨n, p1, p2, p3, har, rfl, h1, h2, h3⟩
  · simp [select_handler] at hs
  · have hn : 1 ≤ n → ∃ name, p1 = some name := by
      intro h1n
      cases p1 with
      | none => have := h1.mpr h1n; cases this
      | some x => exact ⟨x, rfl⟩
    cases i <;> simp [select_handler, Intent.mark] at hs
    · simp only [Intent.arity] at har
      obtain ⟨x, hx⟩ := hn (by omega)
      exact ⟨x, by simp [Intent.mark, hx]⟩
    · simp only [Intent.arity] at har
      obtain ⟨x, hx⟩ := hn (by omega)
      exact ⟨x, by simp [Intent.mark, hx]⟩
  · cases p1 with
    | none => have := h1.mpr har.1; cases this
    | some x => exact ⟨x, rfl⟩

/-- C2: on an accepted command line that `do_config` hands to `config_set`,
once the coercion of the supplied value has given `value`, `config_set` is the
call of the store under `check_lg2` followed by `return 0`: for replace-all
without a third parameter the call is `git_config_set_multivar` with the fixed
pattern `$`, which matches every value and so selects every entry of the key;
with a third parameter (replace-all or a default write) it is
`git_config_set_multivar` with exactly that parameter as the regex; for a
default write without a third parameter, and only then, it is
`git_config_set_string`; for add it is `git_config_set_multivar` with `^$`. -/
theorem config_set_store_call (argv : List String) (opt : config_options) (pos : Nat)
    (h : parse_options argv = .ok (opt, pos)) (hs : select_handler opt = .set) :
    (∃ name, opt.p1 = some name ∧
      ∀ (config : git_config) (w : World) (value : String),
        config_set_svalue opt = .ok value →
        (opt.replace_all = true → opt.p3 = none →
          config_set opt config w =
            (check_lg2 (git_config_set_multivar w config name "$" value)
              "git_config_set_multivar" name).map (fun w1 => (w1, 0))) ∧
        (∀ r, opt.p3 = some r →
          (opt.replace_all = true ∨ opt.def_ = true) ∧
          config_set opt config w =
            (check_lg2 (git_config_set_multivar w config name r value)
              "git_config_set_multivar" name).map (fun w1 => (w1, 0))) ∧
        (opt.def_ = true → opt.p3 = none →
          config_set opt config w =
            (check_lg2 (git_config_set_string w config name value)
              "git_config_set_string" name).map (fun w1 => (w1, 0))) ∧
        (opt.add = true →
          config_set opt config w =
            (check_lg2 (git_config_set_multivar w config name "^$" value)
              "git_config_set_multivar" name).map (fun w1 => (w1, 0)))) ∧
    (opt.add = true ∨ opt.replace_all = true ∨ opt.def_ = true) ∧
    (config_set_regex opt = none ↔ opt.def_ = true ∧ opt.p3 = none) ∧
    (∀ call, config_set_call opt = .ok call →
      ((∃ name value, call = .set_string name value) ↔ opt.def_ = true ∧ opt.p3 = none)) ∧
    (∀ v : String, (regcomp "$").map (fun preg => regexec preg v) = .ok true) ∧
    (∀ (key : String) (e : config_entry),
      selected key { anchor_start := false, body := [], anchor_end := true } e
        = key_matches key e) := by
  obtain ⟨hdollar, hall, hp3, hnone, hcall⟩ := config_set_regex_cases argv opt pos h hs
  obtain ⟨name, hn⟩ := set_handler_has_key argv opt pos h hs
  refine ⟨⟨name, hn, ?_⟩, ?_, hnone, fun call hc => (hcall call hc).1, hall, ?_⟩
  · intro config w value hv
    have heq := config_set_eq opt config w name value hn hv
    refine ⟨?_, ?_, ?_, ?_⟩
    · intro hra h3
      rw [heq, hdollar hra h3]
    · intro r hr
      refine ⟨(hp3 r hr).1, ?_⟩
      rw [heq, (hp3 r hr).2]
    · intro hd h3
      rw [heq, hnone.mpr ⟨hd, h3⟩]
    · intro ha
      have hr : config_set_regex opt = some "^$" := by
        unfold config_set_regex; rw [if_pos ha]
      rw [heq, hr]
  · unfold select_handler at hs
    split_ifs at hs with h1
    rcases h1 with ⟨hd, -⟩ | ha | hra
    · exact Or.inr (Or.inr hd)
    · exact Or.inl ha
    · exact Or.inr (Or.inl hra)
  · intro key e
    unfold selected
    rw [regexec_all, Bool.and_true]

/-- Witness for C2: `config --global --replace-all server.host c` on the
sample state is accepted, goes to `config_set`, and the store replaces the one
value of `server.host` by `c`. -/
theorem config_set_store_call_witness :
    parse_options ["config", "--global", "--replace-all", "server.host", "c"]
      = .ok ({ level := some .GIT_CONFIG_LEVEL_GLOBAL, replace_all := true,
               p1 := some "server.host", p2 := some "c" }, 5) ∧
    select_handler
      { level := some .GIT_CONFIG_LEVEL_GLOBAL, replace_all := true,
        p1 := some "server.host", p2 := some "c" } = .set ∧
    config_set
      { level := some .GIT_CONFIG_LEVEL_GLOBAL, replace_all := true,
        p1 := some "server.host", p2 := some "c" }
      (.live [{ path := "/home/u/.gitconfig", level := .GIT_CONFIG_LEVEL_GLOBAL }])
      sample_world
      = (check_lg2
          (git_config_set_multivar sample_world
            (.live [{ path := "/home/u/.gitconfig", level := .GIT_CONFIG_LEVEL_GLOBAL }])
            "server.host" "$" "c")
          "git_config_set_multivar" "server.host").map (fun w1 => (w1, 0)) ∧
    (main ["config", "--global", "--replace-all", "server.host", "c"] sample_world).world.read
        "/home/u/.gitconfig"
      = [{ name := "server.host", value := "c" }, { name := "feature.flag", value := "yes" }] := by
  refine ⟨by decide, by decide, ?_, by decide⟩
  obtain ⟨name, hn, hcalls⟩ :=
    (config_set_store_call ["config", "--global", "--replace-all", "server.host", "c"]
      { level := some .GIT_CONFIG_LEVEL_GLOBAL, replace_all := true,
        p1 := some "server.host", p2 := some "c" } 5 (by decide) (by decide)).1
  cases hn
  exact (hcalls _ _ "c" (by decide)).1 rfl rfl

/-- C10, as stated, fails: under `--bool` the supplied value `yes` reaches the
store as `true`, and under `--int` the supplied value `4k` as `4096`. -/
theorem config_set_stores_coerced_text :
    config_set_call
      { def_ := true, var_type := some .VAR_TYPE_BOOL,
        p1 := some "feature.flag", p2 := some "yes" }
      = .ok (.set_string "feature.flag" "true") ∧
    config_set_call
      { def_ := true, var_type := some .VAR_TYPE_INT,
        p1 := some "core.bigfilethreshold", p2 := some "4k" }
      = .ok (.set_string "core.bigfilethreshold" "4096") ∧
    "true" ≠ "yes" ∧ "4096" ≠ "4k" := by
  decide

/-- C10, amended: the string `config_set` hands to the store is the supplied
raw value for no type option and for `--path`; under `--bool` it is the text
`true` or `false` of the parsed boolean, under `--int` the decimal text of the
parsed integer, and under `--bool-or-int` the decimal text when the value
parses as an integer and otherwise the text of the parsed boolean. -/
theorem config_set_value (opt : config_options) (p2 : String) (call : store_call)
    (h2 : opt.p2 = some p2) (hc : config_set_call opt = .ok call) :
    (opt.var_type = none ∨ opt.var_type = some .VAR_TYPE_PATH → call.value = p2) ∧
    (opt.var_type = some .VAR_TYPE_BOOL →
      ∃ b, git_config_parse_bool p2 = .ok b ∧ call.value = bool_text b) ∧
    (opt.var_type = some .VAR_TYPE_INT →
      ∃ i, git_config_parse_int64 p2 = .ok i ∧ call.value = PRId64 i) ∧
    (opt.var_type = some .VAR_TYPE_BOOLORINT →
      (∃ i, git_config_parse_int64 p2 = .ok i ∧ call.value = PRId64 i) ∨
      (∃ e b, git_config_parse_int64 p2 = .error e ∧ git_config_parse_bool p2 = .ok b ∧
        call.value = bool_text b)) := by
  obtain ⟨name, value, -, hv, hcall⟩ := config_set_call_eq opt call hc
  have hval : call.value = value := by
    rw [hcall]; cases config_set_regex opt <;> rfl
  rw [hval]
  unfold config_set_svalue at hv
  simp only [h2, deref, bind, Except.bind] at hv
  refine ⟨?_, ?_, ?_, ?_⟩
  · rintro (ht | ht) <;> simp [ht, pure, Except.pure] at hv <;> exact hv.symm
  · intro ht
    simp only [ht, if_true] at hv
    cases hb : git_config_parse_bool p2 with
    | error e => simp [hb, check_lg2] at hv
    | ok b =>
      simp [hb, check_lg2, pure, Except.pure] at hv
      exact ⟨b, rfl, hv.symm⟩
  · intro ht
    simp [ht] at hv
    cases hi : git_config_parse_int64 p2 with
    | error e => simp [hi, check_lg2] at hv
    | ok i =>
      simp [hi, check_lg2, pure, Except.pure] at hv
      exact ⟨i, rfl, hv.symm⟩
  · intro ht
    simp [ht] at hv
    cases hi : git_config_parse_int64 p2 with
    | ok i =>
      simp [hi, pure, Except.pure] at hv
      exact Or.inl ⟨i, rfl, hv.symm⟩
    | error e =>
      cases hb : git_config_parse_bool p2 with
      | error e2 => simp [hi, hb, check_lg2] at hv
      | ok b =>
        simp [hi, hb, pure, Except.pure] at hv
        exact Or.inr ⟨e, b, rfl, rfl, hv.symm⟩

/-- Witness for C10: `config --path core.hookspath ~/hooks` stores the value
as supplied. -/
theorem config_set_value_witness :
    config_set_call
      { def_ := true, var_type := some .VAR_TYPE_PATH,
        p1 := some "core.hookspath", p2 := some "~/hooks" }
      = .ok (.set_string "core.hookspath" "~/hooks") ∧
    (store_call.set_string "core.hookspath" "~/hooks").value = "~/hooks" :=
  ⟨by decide,
    (config_set_value
      { def_ := true, var_type := some .VAR_TYPE_PATH,
        p1 := some "core.hookspath", p2 := some "~/hooks" }
      "~/hooks" (.set_string "core.hookspath" "~/hooks") rfl (by decide)).1 (Or.inr rfl)⟩

/-! ## Properties of `config_get` and `config_get_all` -/

theorem parse_int64_error (v : String) (e : git_error_code)
    (h : git_config_parse_int64 v = .error e) : e = .GIT_ERROR := by
  unfold git_config_parse_int64 at h
  dsimp only at h
  split at h
  · cases h; rfl
  · split_ifs at h <;> (cases h; rfl)

theorem parse_bool_error (v : String) (e : git_error_code)
    (h : git_config_parse_bool v = .error e) : e = .GIT_ERROR := by
  unfold git_config_parse_bool at h
  dsimp only at h
  split_ifs at h
  cases h; rfl

/-- The results of `config_get` by type option: 1 and no text when the lookup
reports NotFound; the text of the value and a newline, and 0, when the lookup
and the coercion succeed under no type option, `--bool`, `--int` or
`--bool-or-int`. -/
theorem config_get_result (opt : config_options) (config : git_config) (w : World)
    (p1 : String) (h1 : opt.p1 = some p1) :
    (git_config_get_string w config p1 = .error .GIT_ENOTFOUND →
      config_get opt config w = ("", .ok 1)) ∧
    (∀ value, git_config_get_string w config p1 = .ok value →
      (opt.var_type = none → config_get opt config w = (value ++ "\n", .ok 0)) ∧
      (opt.var_type = some .VAR_TYPE_BOOL → ∀ b, git_config_parse_bool value = .ok b →
        config_get opt config w = (bool_text b ++ "\n", .ok 0)) ∧
      (opt.var_type = some .VAR_TYPE_INT → ∀ i, git_config_parse_int64 value = .ok i →
        config_get opt config w = (PRId64 i ++ "\n", .ok 0)) ∧
      (opt.var_type = some .VAR_TYPE_BOOLORINT →
        (∀ i, git_config_parse_int64 value = .ok i →
          config_get opt config w = (PRId64 i ++ "\n", .ok 0)) ∧
        (∀ e b, git_config_parse_int64 value = .error e → git_config_parse_bool value = .ok b →
          config_get opt config w = (bool_text b ++ "\n", .ok 0)))) := by
  refine ⟨?_, ?_⟩
  · intro hs
    unfold config_get
    simp only [h1, git_config_get_bool, git_config_get_int64, hs]
    split_ifs <;> rfl
  · intro value hs
    refine ⟨?_, ?_, ?_, ?_⟩
    · intro ht
      unfold config_get
      simp [h1, ht, hs]
    · intro ht b hb
      unfold config_get
      simp [h1, ht, hs, git_config_get_bool, hb]
    · intro ht i hi
      unfold config_get
      simp [h1, ht, hs, git_config_get_int64, hi]
    · intro ht
      constructor
      · intro i hi
        unfold config_get
        simp [h1, ht, hs, git_config_get_int64, hi]
      · intro e b he hb
        have := parse_int64_error value e he
        subst this
        unfold config_get
        simp [h1, ht, hs, git_config_get_int64, git_config_get_bool, he, hb]

/-- The multivar enumeration of a key that no layer binds: `config_get_all`
returns the library's NotFound code as it is. -/
theorem config_get_all_not_found (opt : config_options) (config : git_config) (w : World)
    (p1 key : String) (filter : Option regex_t) (h1 : opt.p1 = some p1)
    (hk : git_config__normalize_name p1 = .ok key) (hf : compile_filter opt.p2 = .ok filter)
    (hn : get_all key (config.view w) = []) :
    config_get_all opt config w = ("", .ok git_error_code.GIT_ENOTFOUND.toInt) := by
  unfold config_get_all git_config_get_multivar_foreach
  simp only [h1, hk, hn, hf, List.filter_nil]

/-- C4: for the get-all intent on a key that has no value, the command does
not return 1: `config --global --get-all missing.key` returns the library code
of NotFound, -3, while `config --global --get missing.key` returns 1. -/
theorem get_all_miss_returns_library_code :
    main ["config", "--global", "--get-all", "missing.key"] sample_world =
      { out := "", world := sample_world, res := .ok (-3) } ∧
    (main ["config", "--global", "--get-all", "missing.key"] sample_world).status ≠ 1 ∧
    main ["config", "--global", "--get", "missing.key"] sample_world =
      { out := "", world := sample_world, res := .ok 1 } := by
  decide

/-! ## Properties of `prepare_config` and `do_config` -/

/-- C5: with the Global level selector and an XDG file found, the
configuration built by `prepare_config` holds the XDG file alone (the second
`git_config_new` drops the configuration that held the global file), so a key
bound in the global file only is then NotFound; with no XDG file the
configuration holds the global file. -/
theorem global_layer_lost_with_xdg :
    (∀ (opt : config_options) (w : World) (g x : String),
      prepare_fconfig { opt with level := some .GIT_CONFIG_LEVEL_GLOBAL }
          { w with global_file := .ok g, xdg_file := .ok x }
        = .ok (.live [{ path := x, level := .GIT_CONFIG_LEVEL_GLOBAL }])) ∧
    (∀ (opt : config_options) (w : World) (g : String),
      prepare_fconfig { opt with level := some .GIT_CONFIG_LEVEL_GLOBAL }
          { w with global_file := .ok g, xdg_file := .error .GIT_ENOTFOUND }
        = .ok (.live [{ path := g, level := .GIT_CONFIG_LEVEL_GLOBAL }])) ∧
    main ["config", "--global", "--get", "feature.flag"] sample_world =
      { out := "yes\n", world := sample_world, res := .ok 0 } ∧
    main ["config", "--global", "--get", "feature.flag"] sample_world_xdg =
      { out := "", world := sample_world_xdg, res := .ok 1 } := by
  refine ⟨?_, ?_, by decide, by decide⟩
  · intro opt w g x
    rfl
  · intro opt w g
    rfl

/-- C8, as stated, fails: `-z` and `--null` are parsed and recorded in
`opt->null`, yet the value printed by get and by get-all is still followed by
a newline and not by NUL. -/
theorem null_option_keeps_newline :
    (parse_options ["config", "--global", "-z", "--get", "feature.flag"]).map
        (fun r => r.1.null) = .ok true ∧
    (main ["config", "--global", "-z", "--get", "feature.flag"] sample_world).out = "yes\n" ∧
    (main ["config", "--global", "--null", "--get-all", "feature.flag"] sample_world).out
      = "yes\n" ∧
    "yes\n" ≠ "yes\x00" := by
  decide

/-- C8, amended: under no type option, `--bool`, `--int` and `--bool-or-int`
the option `-z`/`--null` does not change the output: `config_get` and
`config_get_all_cb` write the same text whatever the value of `opt->null`, so
does the whole of `do_config`, and every value they emit is terminated by a
newline. (What is written for an expanded path under `--path` is left out.) -/
theorem output_ignores_null_option (opt : config_options)
    (ht : opt.var_type ≠ some .VAR_TYPE_PATH) :
    (∀ (config : git_config) (w : World) (b : Bool),
      config_get { opt with null := b } config w = config_get opt config w) ∧
    (∀ (w : World) (entry : config_entry) (b : Bool),
      config_get_all_cb { opt with null := b } w entry = config_get_all_cb opt w entry) ∧
    (∀ (w : World) (b : Bool), do_config { opt with null := b } w = do_config opt w) ∧
    (∀ (config : git_config) (w : World),
      (config_get opt config w).1 = "" ∨
        ∃ text, (config_get opt config w).1 = text ++ "\n") ∧
    (∀ (config : git_config) (w : World),
      (config_get opt config w).2 = .ok 0 →
        ∃ text, (config_get opt config w).1 = text ++ "\n") ∧
    (∀ (w : World) (entry : config_entry),
      (config_get_all_cb opt w entry).1 = "" ∨
        ∃ text, (config_get_all_cb opt w entry).1 = text ++ "\n") ∧
    (∀ (w : World) (entry : config_entry),
      (config_get_all_cb opt w entry).2 = .ok 0 →
        ∃ text, (config_get_all_cb opt w entry).1 = text ++ "\n") := by
  refine ⟨fun _ _ _ => rfl, fun _ _ _ => rfl, fun _ _ => rfl, ?_, ?_, ?_, ?_⟩
  · intro config w
    unfold config_get
    repeat' split
    all_goals first
      | exact Or.inl rfl
      | exact Or.inr ⟨_, rfl⟩
  · intro config w
    unfold config_get
    repeat' split
    all_goals first
      | (intro h0; exact ⟨_, rfl⟩)
      | (intro h0; cases h0)
  · intro w entry
    unfold config_get_all_cb
    dsimp only
    repeat' split
    all_goals first
      | exact Or.inl rfl
      | exact Or.inr ⟨_, rfl⟩
  · intro w entry
    unfold config_get_all_cb
    dsimp only
    repeat' split
    all_goals first
      | (intro h0; exact ⟨_, rfl⟩)
      | (intro h0; cases h0)

/-- Witness for C8: `-z --get feature.flag`, with no type option. -/
theorem output_ignores_null_option_witness :
    ({ get := true, null := true, p1 := some "feature.flag" } : config_options).var_type
      ≠ some .VAR_TYPE_PATH ∧
    ∀ (config : git_config) (w : World),
      config_get { get := true, null := true, p1 := some "feature.flag" } config w
        = config_get { get := true, null := false, p1 := some "feature.flag" } config w :=
  ⟨by decide, fun config w =>
    (output_ignores_null_option { get := true, null := true, p1 := some "feature.flag" }
      (by decide)).1 config w false⟩

theorem add_file_live (cfg c : git_config) (path : String) (level : git_config_level_t)
    (force : Bool) (h : git_config_add_file_ondisk cfg path level force = .ok c) :
    c.is_snapshot = false := by
  unfold git_config_add_file_ondisk at h
  cases cfg with
  | snapshot ls => cases h
  | live ls =>
    dsimp only at h
    split_ifs at h
    cases h; rfl

theorem open_default_live (w : World) (c : git_config)
    (h : git_config_open_default w = .ok c) : c.is_snapshot = false := by
  unfold git_config_open_default at h
  cases h; rfl

theorem repository_config_live (w : World) (root : String) (c : git_config)
    (h : git_repository_config w root = .ok c) : c.is_snapshot = false := by
  unfold git_repository_config at h
  split at h
  · cases h; rfl
  · cases h
  · cases h

theorem check_lg2_ok {α : Type} (r : Except git_error_code α) (m x : String) (a : α)
    (h : check_lg2 r m x = .ok a) : r = .ok a := by
  unfold check_lg2 at h
  cases r with
  | error e => cases h
  | ok b => cases h; rfl

theorem bind_ok {ε α β : Type} (x : Except ε α) (f : α → Except ε β) (c : β)
    (h : (x >>= f) = .ok c) : ∃ a, x = .ok a ∧ f a = .ok c := by
  cases x with
  | error e => cases h
  | ok a => exact ⟨a, rfl, h⟩

/-- The configuration built for the level selector is a live one. -/
theorem prepare_fconfig_live (opt : config_options) (w : World) (c : git_config)
    (h : prepare_fconfig opt w = .ok c) : c.is_snapshot = false := by
  unfold prepare_fconfig at h
  split_ifs at h
  · obtain ⟨f, -, h⟩ := bind_ok _ _ _ h
    obtain ⟨c0, -, h⟩ := bind_ok _ _ _ h
    exact add_file_live _ _ _ _ _ (check_lg2_ok _ _ _ _ h)
  · obtain ⟨f, -, h⟩ := bind_ok _ _ _ h
    obtain ⟨c0, -, h⟩ := bind_ok _ _ _ h
    obtain ⟨c1, h2, h⟩ := bind_ok _ _ _ h
    split at h
    · obtain ⟨c2, -, h⟩ := bind_ok _ _ _ h
      exact add_file_live _ _ _ _ _ (check_lg2_ok _ _ _ _ h)
    · split_ifs at h
      · cases h
      · cases h
        exact add_file_live _ _ _ _ _ (check_lg2_ok _ _ _ _ h2)
  · obtain ⟨c0, -, h⟩ := bind_ok _ _ _ h
    obtain ⟨f, -, h⟩ := bind_ok _ _ _ h
    exact add_file_live _ _ _ _ _ (check_lg2_ok _ _ _ _ h)
  · obtain ⟨f, -, h⟩ := bind_ok _ _ _ h
    obtain ⟨_, -, h⟩ := bind_ok _ _ _ h
    obtain ⟨c0, -, h⟩ := bind_ok _ _ _ h
    exact add_file_live _ _ _ _ _ (check_lg2_ok _ _ _ _ h)
  · split at h
    · obtain ⟨_, -, h⟩ := bind_ok _ _ _ h
      exact repository_config_live _ _ _ (check_lg2_ok _ _ _ _ h)
    · exact open_default_live _ _ (check_lg2_ok _ _ _ _ h)

/-- The handle `prepare_config` gives is a snapshot exactly under the
condition of line 268. -/
theorem prepare_config_snapshot (opt : config_options) (w : World) (config : git_config)
    (h : prepare_config opt w = .ok config) : config.is_snapshot = wants_snapshot opt := by
  unfold prepare_config at h
  obtain ⟨f, h1, h⟩ := bind_ok _ _ _ h
  cases hw : wants_snapshot opt with
  | true =>
    rw [hw, if_pos rfl] at h
    have h2 := check_lg2_ok _ _ _ _ h
    unfold git_config_snapshot at h2
    cases h2; rfl
  | false =>
    rw [hw] at h
    cases h
    exact prepare_fconfig_live opt w _ h1

theorem isSome_ne_none (p : Option String) (n k : Nat) (h : p.isSome = true ↔ k ≤ n)
    (hk : k ≤ n) : p ≠ none := by
  intro hp; subst hp
  have := h.mpr hk
  cases this

/-- C6: on an accepted command line, the handle `do_config` works on is a
snapshot exactly for the intents get, get-all, get-regexp, get-urlmatch, list
and for a default command with a key and no value; `do_config` runs its
handler on that handle, so `config_set` never runs on a snapshot and
`config_get` and `config_get_all` never run on the live configuration. -/
theorem snapshot_for_reads_only (argv : List String) (opt : config_options) (pos : Nat)
    (w : World) (config : git_config)
    (hp : parse_options argv = .ok (opt, pos)) (hc : prepare_config opt w = .ok config) :
    (config.is_snapshot = true ↔
      (opt.get = true ∨ opt.get_all = true ∨ opt.get_regexp = true ∨ opt.get_urlmatch = true ∨
        opt.list = true ∨ (opt.def_ = true ∧ opt.p1 ≠ none ∧ opt.p2 = none))) ∧
    do_config opt w = run_handler opt config w (select_handler opt) ∧
    (select_handler opt = .set → config.is_snapshot = false) ∧
    (select_handler opt = .get ∨ select_handler opt = .get_all → config.is_snapshot = true) := by
  have hsnap := prepare_config_snapshot opt w config hc
  have hdo : do_config opt w = run_handler opt config w (select_handler opt) := by
    unfold do_config; rw [hc]
  rw [hsnap]
  refine ⟨?_, hdo, ?_, ?_⟩ <;>
  · obtain ⟨o3, hk, hshape⟩ := parse_options_shape argv opt pos hp
    rw [head_fields o3 hk] at hshape
    rcases hshape with rfl | ⟨i, n, p1, p2, p3, har, rfl, h1, h2, h3⟩ |
      ⟨n, p1, p2, p3, har, rfl, h1, h2, h3⟩
    · simp [wants_snapshot, select_handler]
    · cases i <;> simp [wants_snapshot, select_handler, Intent.mark]
    · have hp1 : p1 ≠ none := isSome_ne_none p1 n 1 h1 har.1
      cases p2 <;> simp [wants_snapshot, select_handler, hp1]

/-- Witness for C6: `config --global --get feature.flag` on the sample state
is served from a snapshot. -/
theorem snapshot_for_reads_only_witness :
    parse_options ["config", "--global", "--get", "feature.flag"]
      = .ok ({ level := some .GIT_CONFIG_LEVEL_GLOBAL, get := true,
               p1 := some "feature.flag" }, 4) ∧
    prepare_config
      { level := some .GIT_CONFIG_LEVEL_GLOBAL, get := true, p1 := some "feature.flag" }
      sample_world
      = .ok (.snapshot [({ path := "/home/u/.gitconfig", level := .GIT_CONFIG_LEVEL_GLOBAL },
          sample_world.read "/home/u/.gitconfig")]) ∧
    (git_config.snapshot [({ path := "/home/u/.gitconfig", level := .GIT_CONFIG_LEVEL_GLOBAL },
          sample_world.read "/home/u/.gitconfig")]).is_snapshot = true :=
  ⟨by decide, by decide,
    (snapshot_for_reads_only ["config", "--global", "--get", "feature.flag"]
      { level := some .GIT_CONFIG_LEVEL_GLOBAL, get := true, p1 := some "feature.flag" } 4
      sample_world
      (.snapshot [({ path := "/home/u/.gitconfig", level := .GIT_CONFIG_LEVEL_GLOBAL },
          sample_world.read "/home/u/.gitconfig")])
      (by decide) (by decide)).2.2.2 (Or.inl (by decide))⟩

/-! ## Properties of `parse_options` -/

theorem wrong_arg_count_status :
    ∃ e, (wrong_arg_count : Except Exit (config_options × Nat)) = .error e ∧ e.status = 129 :=
  ⟨_, rfl, rfl⟩

/-- C7: let the three leading option blocks stop at the token `a`. If `a` is
the flag of an intent, `parse_options` ends with the usage status 129 exactly
when the number of tokens after `a` is outside the arity the CLI surface
declares for that intent, and otherwise it succeeds with `p1`, `p2`, `p3` the
first three of these tokens in order (`NULL` where there is none). If `a` is
no flag and begins with `-`, it ends with 129. Otherwise `a` is a bare key:
it ends with 129 exactly when the number of tokens from `a` on is not 1, 2 or
3, and otherwise succeeds with `p1`, `p2`, `p3` the first three of them. -/
theorem parse_options_arity (argv : List String) (o3 : config_options) (pos3 : Nat)
    (a : String) (hh : parse_head argv = .ok (o3, pos3)) (ha : argv[pos3]? = some a) :
    (∀ i, flag_intent a = some i →
      ((∃ e, parse_options argv = .error e ∧ e.status = 129) ↔
        ¬ i.arity (argv.length - (pos3 + 1))) ∧
      (i.arity (argv.length - (pos3 + 1)) →
        ∃ opt, parse_options argv = .ok (opt, argv.length) ∧ opt.def_ = false ∧
          opt.p1 = argv[pos3 + 1]? ∧ opt.p2 = argv[pos3 + 2]? ∧ opt.p3 = argv[pos3 + 3]?)) ∧
    (flag_intent a = none → a.data.head? = some '-' →
      ∃ e, parse_options argv = .error e ∧ e.status = 129) ∧
    (flag_intent a = none → a.data.head? ≠ some '-' →
      ((∃ e, parse_options argv = .error e ∧ e.status = 129) ↔
        ¬ default_arity (argv.length - pos3)) ∧
      (default_arity (argv.length - pos3) →
        ∃ opt, parse_options argv = .ok (opt, argv.length) ∧ opt.def_ = true ∧
          opt.p1 = argv[pos3]? ∧ opt.p2 = argv[pos3 + 1]? ∧ opt.p3 = argv[pos3 + 2]?)) := by
  have hk := parse_head_keeps argv o3 pos3 hh
  refine ⟨?_, ?_, ?_⟩
  · intro i hi
    have heq := parse_options_flag argv o3 pos3 a i hh ha hi
    constructor
    · constructor
      · rintro ⟨e, he, -⟩ har
        rw [heq, if_pos har] at he
        cases he
      · intro har
        rw [heq, if_neg har]
        exact wrong_arg_count_status
    · intro har
      rw [heq, if_pos har]
      refine ⟨_, rfl, ?_, rfl, rfl, rfl⟩
      rw [head_fields o3 hk]
      cases i <;> rfl
  · intro hi hd
    rw [parse_options_dash argv o3 pos3 a hh ha hi hd]
    exact ⟨_, rfl, rfl⟩
  · intro hi hd
    have heq := parse_options_bare argv o3 pos3 a hh ha hi hd
    constructor
    · constructor
      · rintro ⟨e, he, -⟩ har
        rw [heq, if_pos har] at he
        cases he
      · intro har
        rw [heq, if_neg har]
        exact wrong_arg_count_status
    · intro har
      rw [heq, if_pos har]
      exact ⟨_, rfl, rfl, rfl, rfl, rfl⟩

/-- Witness for C7: `config --global --add server.host b c` has three tokens
after `--add`, whose arity is two, and ends with the usage status. -/
theorem parse_options_arity_witness :
    parse_head ["config", "--global", "--add", "server.host", "b", "c"]
      = .ok ({ level := some .GIT_CONFIG_LEVEL_GLOBAL }, 2) ∧
    ["config", "--global", "--add", "server.host", "b", "c"][2]? = some "--add" ∧
    flag_intent "--add" = some .add ∧
    ¬ Intent.add.arity (6 - (2 + 1)) ∧
    ∃ e, parse_options ["config", "--global", "--add", "server.host", "b", "c"] = .error e ∧
      e.status = 129 :=
  ⟨by decide, by decide, by decide, by decide,
    ((parse_options_arity ["config", "--global", "--add", "server.host", "b", "c"]
      { level := some .GIT_CONFIG_LEVEL_GLOBAL } 2 "--add" (by decide) (by decide)).1
      .add (by decide)).1.mpr (by decide)⟩

/-! ## The unset intent -/

/-- C9, as stated, fails: on the sample state `feature.flag` has exactly one
value in the global file, yet `config --global --unset feature.flag` returns
129, leaves the file as it was, and a following get still prints the value
and returns 0. -/
theorem unset_command_removes_nothing :
    entries_of "feature.flag" (sample_world.read "/home/u/.gitconfig")
      = [{ name := "feature.flag", value := "yes" }] ∧
    main ["config", "--global", "--unset", "feature.flag"] sample_world =
      { out := "", world := sample_world, res := .ok 129 } ∧
    main ["config", "--global", "--get", "feature.flag"]
        (main ["config", "--global", "--unset", "feature.flag"] sample_world).world =
      { out := "yes\n", world := sample_world, res := .ok 0 } := by
  decide

/-- C9, amended: for the unset intent, running the command (`parse_options`
then `do_config`) makes no call into the store: the files stay as they were,
nothing is printed, and once the configuration is opened the result is 129;
any command run afterwards behaves as it would have without the unset. -/
theorem unset_returns_129 (argv : List String) (opt : config_options) (pos : Nat) (w : World)
    (hp : parse_options argv = .ok (opt, pos)) (hu : opt.unset = true) :
    select_handler opt = .unsupported ∧
    (main argv w).world = w ∧ (main argv w).out = "" ∧
    (∀ config, prepare_config opt w = .ok config →
      main argv w = { out := "", world := w, res := .ok 129 }) ∧
    (∀ argv2, main argv2 (main argv w).world = main argv2 w) := by
  have hsel : select_handler opt = .unsupported := by
    obtain ⟨o3, hk, hshape⟩ := parse_options_shape argv opt pos hp
    rw [head_fields o3 hk] at hshape
    rcases hshape with rfl | ⟨i, n, p1, p2, p3, har, rfl, h1, h2, h3⟩ |
      ⟨n, p1, p2, p3, har, rfl, h1, h2, h3⟩
    · simp at hu
    · cases i <;> simp [Intent.mark] at hu
      simp [select_handler, Intent.mark]
    · simp at hu
  have hmain : main argv w = do_config opt w := by
    unfold main; rw [hp]
  have hw : (main argv w).world = w ∧ (main argv w).out = "" := by
    rw [hmain]; unfold do_config
    cases prepare_config opt w with
    | error e => exact ⟨rfl, rfl⟩
    | ok config => rw [hsel]; exact ⟨rfl, rfl⟩
  refine ⟨hsel, hw.1, hw.2, ?_, ?_⟩
  · intro config hc
    rw [hmain]; unfold do_config
    rw [hc, hsel]; rfl
  · intro argv2
    rw [hw.1]

/-- Witness for C9: `config --global --unset feature.flag` on the sample
state. -/
theorem unset_returns_129_witness :
    parse_options ["config", "--global", "--unset", "feature.flag"]
      = .ok ({ level := some .GIT_CONFIG_LEVEL_GLOBAL, unset := true,
               p1 := some "feature.flag" }, 4) ∧
    (main ["config", "--global", "--unset", "feature.flag"] sample_world).world
      = sample_world :=
  ⟨by decide,
    (unset_returns_129 ["config", "--global", "--unset", "feature.flag"]
      { level := some .GIT_CONFIG_LEVEL_GLOBAL, unset := true, p1 := some "feature.flag" } 4
      sample_world (by decide) rfl).2.1⟩

/-! ## The type option `--bool-or-int` -/

/-- C11: under `--bool-or-int`, `config_set` on the supplied value and
`config_get_all_cb` on each stored value try the integer reading first: when
`git_config_parse_int64` succeeds with `i` the result is the decimal text of
`i`; otherwise, when `git_config_parse_bool` succeeds with `b`, it is `true`
or `false` according to `b`; when both fail the operation ends in the
`check_lg2` of the integer result, labelled `git_config_parse_int64`, and
never in one of the boolean result. -/
theorem bool_or_int_tries_int_first (opt : config_options) (raw : String)
    (entry : config_entry) (w : World)
    (ht : opt.var_type = some .VAR_TYPE_BOOLORINT) (h2 : opt.p2 = some raw) :
    (∀ i, git_config_parse_int64 raw = .ok i → config_set_svalue opt = .ok (PRId64 i)) ∧
    (∀ e b, git_config_parse_int64 raw = .error e → git_config_parse_bool raw = .ok b →
      config_set_svalue opt = .ok (if b = true then "true" else "false")) ∧
    (∀ ei eb, git_config_parse_int64 raw = .error ei → git_config_parse_bool raw = .error eb →
      config_set_svalue opt = .error (Exit.lg2 ei "git_config_parse_int64" (opt.p1.getD "")) ∧
      (∀ config, config_set opt config w
        = .error (Exit.lg2 ei "git_config_parse_int64" (opt.p1.getD ""))) ∧
      Exit.lg2 ei "git_config_parse_int64" (opt.p1.getD "")
        ≠ Exit.lg2 eb "git_config_parse_bool" (opt.p1.getD "")) ∧
    (∀ i, git_config_parse_int64 entry.value = .ok i →
      config_get_all_cb opt w entry = (PRId64 i ++ "\n", .ok 0)) ∧
    (∀ e b, git_config_parse_int64 entry.value = .error e →
      git_config_parse_bool entry.value = .ok b →
      config_get_all_cb opt w entry = ((if b = true then "true" else "false") ++ "\n", .ok 0)) ∧
    (∀ ei eb, git_config_parse_int64 entry.value = .error ei →
      git_config_parse_bool entry.value = .error eb →
      config_get_all_cb opt w entry
        = ("", .error (Exit.lg2 ei "git_config_parse_int64" (opt.p1.getD "")))) := by
  have hb : some var_type_t.VAR_TYPE_BOOLORINT ≠ some var_type_t.VAR_TYPE_BOOL := by decide
  have hi : some var_type_t.VAR_TYPE_BOOLORINT ≠ some var_type_t.VAR_TYPE_INT := by decide
  have hset : config_set_svalue opt =
      (match git_config_parse_int64 raw with
       | .ok ivalue => .ok (PRId64 ivalue)
       | .error iresult =>
         match git_config_parse_bool raw with
         | .ok bvalue => .ok (bool_text bvalue)
         | .error _ => .error (Exit.lg2 iresult "git_config_parse_int64" (opt.p1.getD ""))) := by
    unfold config_set_svalue
    simp only [h2, deref, bind, Except.bind, ht, if_neg hb, if_neg hi, if_true]
    cases git_config_parse_int64 raw with
    | ok i => rfl
    | error e =>
      cases git_config_parse_bool raw with
      | ok b => rfl
      | error e2 => rfl
  have hcb : config_get_all_cb opt w entry =
      (match git_config_parse_int64 entry.value with
       | .ok ivalue => (PRId64 ivalue ++ "\n", .ok 0)
       | .error iresult =>
         match git_config_parse_bool entry.value with
         | .ok bvalue => (bool_text bvalue ++ "\n", .ok 0)
         | .error _ =>
           ("", .error (Exit.lg2 iresult "git_config_parse_int64" (opt.p1.getD "")))) := by
    unfold config_get_all_cb
    simp only [ht, if_neg hb, if_neg hi, if_true]
  refine ⟨?_, ?_, ?_, ?_, ?_, ?_⟩
  · intro i h
    rw [hset, h]
  · intro e b h hbool
    rw [hset, h, hbool]
    cases b <;> rfl
  · intro ei eb h hbool
    have hs : config_set_svalue opt
        = .error (Exit.lg2 ei "git_config_parse_int64" (opt.p1.getD "")) := by
      rw [hset, h, hbool]
    refine ⟨hs, ?_, ?_⟩
    · intro config
      unfold config_set config_set_call
      simp only [hs, bind, Except.bind]
    · intro hne
      injection hne with _ hlabel _
      exact absurd hlabel (by decide)
  · intro i h
    rw [hcb, h]
  · intro e b h hbool
    rw [hcb, h, hbool]
    cases b <;> rfl
  · intro ei eb h hbool
    rw [hcb, h, hbool]

/-- Witness for C11: `config --bool-or-int feature.flag maybe`, a value that
is neither an integer nor a boolean. -/
theorem bool_or_int_tries_int_first_witness :
    git_config_parse_int64 "maybe" = .error .GIT_ERROR ∧
    git_config_parse_bool "maybe" = .error .GIT_ERROR ∧
    config_set_svalue
      { def_ := true, var_type := some .VAR_TYPE_BOOLORINT,
        p1 := some "feature.flag", p2 := some "maybe" }
      = .error (Exit.lg2 .GIT_ERROR "git_config_parse_int64" "feature.flag") :=
  ⟨by decide, by decide,
    ((bool_or_int_tries_int_first
      { def_ := true, var_type := some .VAR_TYPE_BOOLORINT,
        p1 := some "feature.flag", p2 := some "maybe" }
      "maybe" { name := "feature.flag", value := "yes" } sample_world rfl rfl).2.2.1
      .GIT_ERROR .GIT_ERROR (by decide) (by decide)).1⟩

/-! ## The get intent and the bare single-key read -/

theorem digitChar_ne_newline (n : Nat) (h : n < 10) : Nat.digitChar n ≠ '\n' := by
  interval_cases n <;> decide

theorem toDigitsCore_no_newline (fuel n : Nat) (ds : List Char) (h : '\n' ∉ ds) :
    '\n' ∉ Nat.toDigitsCore 10 fuel n ds := by
  induction fuel generalizing n ds with
  | zero => simpa [Nat.toDigitsCore] using h
  | succ k ih =>
    have hd : '\n' ∉ Nat.digitChar (n % 10) :: ds := by
      intro hm
      rcases List.mem_cons.mp hm with h1 | h1
      · exact digitChar_ne_newline _ (Nat.mod_lt _ (by decide)) h1.symm
      · exact h h1
    simp only [Nat.toDigitsCore]
    split_ifs
    · exact hd
    · exact ih _ _ hd

theorem nat_repr_no_newline (n : Nat) : '\n' ∉ (Nat.repr n).data := by
  unfold Nat.repr Nat.toDigits
  simpa [List.asString] using toDigitsCore_no_newline (n + 1) n [] (by simp)

theorem PRId64_no_newline (i : Int) : '\n' ∉ (PRId64 i).data := by
  unfold PRId64
  cases i with
  | ofNat n => exact nat_repr_no_newline n
  | negSucc n =>
    show '\n' ∉ ("-" ++ Nat.repr (n + 1)).data
    rw [String.data_append]
    intro hm
    rcases List.mem_append.mp hm with h1 | h1
    · revert h1; decide
    · exact nat_repr_no_newline _ h1

theorem bool_text_no_newline (b : Bool) : '\n' ∉ (bool_text b).data := by
  cases b <;> decide

theorem line_count_one (text : String) (h : '\n' ∉ text.data) :
    line_count (text ++ "\n") = 1 := by
  unfold line_count
  rw [String.data_append, List.count_append, List.count_eq_zero_of_not_mem h]
  rfl



/-- C3, as stated, fails: `core.note` is bound to a value of two lines, the
lookup and the (absent) coercion succeed, and `config --global --get core.note`
prints two lines, not one, before returning 0. -/
theorem get_prints_value_of_two_lines :
    main ["config", "--global", "--get", "core.note"] note_world =
      { out := "a\nb\n", world := note_world, res := .ok 0 } ∧
    line_count "a\nb\n" = 2 := by
  decide

/-- C3, amended: on an accepted command line with the get intent or with a
bare key and no value, `do_config` runs `config_get` on the prepared handle.
For every type option, `--path` included, a lookup that reports NotFound
prints nothing and returns 1. When the lookup and the coercion succeed under
no type option, `--bool`, `--int` or `--bool-or-int`, the text of the value
followed by one newline is printed and 0 returned; that is exactly one line
under `--bool`, `--int` and `--bool-or-int`, and under no type option when the
value holds no newline. (The expanded path under `--path` is left out.) -/
theorem get_miss_or_value_line (argv : List String) (opt : config_options) (pos : Nat)
    (w : World) (config : git_config)
    (hp : parse_options argv = .ok (opt, pos))
    (hg : opt.get = true ∨ (opt.def_ = true ∧ opt.p2 = none))
    (hc : prepare_config opt w = .ok config) :
    ∃ p1, opt.p1 = some p1 ∧
      main argv w =
        { out := (config_get opt config w).1, world := w, res := (config_get opt config w).2 } ∧
      (git_config_get_string w config p1 = .error .GIT_ENOTFOUND →
        main argv w = { out := "", world := w, res := .ok 1 }) ∧
      (∀ value, git_config_get_string w config p1 = .ok value →
        (opt.var_type = none →
          main argv w = { out := value ++ "\n", world := w, res := .ok 0 } ∧
          ('\n' ∉ value.data → line_count (value ++ "\n") = 1)) ∧
        (opt.var_type = some .VAR_TYPE_BOOL → ∀ b, git_config_parse_bool value = .ok b →
          main argv w = { out := bool_text b ++ "\n", world := w, res := .ok 0 } ∧
          line_count (bool_text b ++ "\n") = 1) ∧
        (opt.var_type = some .VAR_TYPE_INT → ∀ i, git_config_parse_int64 value = .ok i →
          main argv w = { out := PRId64 i ++ "\n", world := w, res := .ok 0 } ∧
          line_count (PRId64 i ++ "\n") = 1) ∧
        (opt.var_type = some .VAR_TYPE_BOOLORINT →
          (∀ i, git_config_parse_int64 value = .ok i →
            main argv w = { out := PRId64 i ++ "\n", world := w, res := .ok 0 } ∧
            line_count (PRId64 i ++ "\n") = 1) ∧
          (∀ e b, git_config_parse_int64 value = .error e →
            git_config_parse_bool value = .ok b →
            main argv w = { out := bool_text b ++ "\n", world := w, res := .ok 0 } ∧
            line_count (bool_text b ++ "\n") = 1))) := by
  have hsel : select_handler opt = .get ∧ ∃ p1, opt.p1 = some p1 := by
    obtain ⟨o3, hk, hshape⟩ := parse_options_shape argv opt pos hp
    rw [head_fields o3 hk] at hshape
    rcases hshape with rfl | ⟨i, n, p1, p2, p3, har, rfl, h1, h2, h3⟩ |
      ⟨n, p1, p2, p3, har, rfl, h1, h2, h3⟩
    · simp at hg
    · cases i <;> simp [Intent.mark] at hg
      simp only [Intent.arity] at har
      refine ⟨by simp [select_handler, Intent.mark], ?_⟩
      cases p1 with
      | none => have := h1.mpr (by omega); cases this
      | some x => exact ⟨x, rfl⟩
    · simp at hg
      subst hg
      refine ⟨by simp [select_handler], ?_⟩
      cases p1 with
      | none => have := h1.mpr har.1; cases this
      | some x => exact ⟨x, rfl⟩
  obtain ⟨hget, p1, h1⟩ := hsel
  have hmain : main argv w =
      { out := (config_get opt config w).1, world := w, res := (config_get opt config w).2 } := by
    unfold main; rw [hp]
    unfold do_config
    simp only [hc, hget, run_handler]
  obtain ⟨hmiss, hval⟩ := config_get_result opt config w p1 h1
  refine ⟨p1, h1, hmain, ?_, ?_⟩
  · intro hs
    rw [hmain, hmiss hs]
  · intro value hs
    obtain ⟨hraw, hbool, hint, hboi⟩ := hval value hs
    refine ⟨?_, ?_, ?_, ?_⟩
    · intro ht
      refine ⟨?_, line_count_one value⟩
      rw [hmain, hraw ht]
    · intro ht b hb
      refine ⟨?_, line_count_one _ (bool_text_no_newline b)⟩
      rw [hmain, hbool ht b hb]
    · intro ht i hi
      refine ⟨?_, line_count_one _ (PRId64_no_newline i)⟩
      rw [hmain, hint ht i hi]
    · intro ht
      constructor
      · intro i hi
        refine ⟨?_, line_count_one _ (PRId64_no_newline i)⟩
        rw [hmain, (hboi ht).1 i hi]
      · intro e b he hb
        refine ⟨?_, line_count_one _ (bool_text_no_newline b)⟩
        rw [hmain, (hboi ht).2 e b he hb]

/-- Witness for C3: `config --global --bool --get feature.flag` on the sample
state, where the stored raw value is `yes`. -/
theorem get_miss_or_value_line_witness :
    parse_options ["config", "--global", "--bool", "--get", "feature.flag"]
      = .ok ({ level := some .GIT_CONFIG_LEVEL_GLOBAL, var_type := some .VAR_TYPE_BOOL,
               get := true, p1 := some "feature.flag" }, 5) ∧
    prepare_config
      { level := some .GIT_CONFIG_LEVEL_GLOBAL, var_type := some .VAR_TYPE_BOOL,
        get := true, p1 := some "feature.flag" } sample_world
      = .ok (.snapshot [({ path := "/home/u/.gitconfig", level := .GIT_CONFIG_LEVEL_GLOBAL },
          sample_world.read "/home/u/.gitconfig")]) ∧
    main ["config", "--global", "--bool", "--get", "feature.flag"] sample_world
      = { out := "true\n", world := sample_world, res := .ok 0 } := by
  refine ⟨by decide, by decide, ?_⟩
  obtain ⟨p1, h1, -, -, hval⟩ :=
    get_miss_or_value_line ["config", "--global", "--bool", "--get", "feature.flag"]
      { level := some .GIT_CONFIG_LEVEL_GLOBAL, var_type := some .VAR_TYPE_BOOL,
        get := true, p1 := some "feature.flag" } 5 sample_world
      (.snapshot [({ path := "/home/u/.gitconfig", level := .GIT_CONFIG_LEVEL_GLOBAL },
          sample_world.read "/home/u/.gitconfig")])
      (by decide) (Or.inl rfl) (by decide)
  cases h1
  exact ((hval "yes" (by decide)).2.1 rfl true (by decide)).1

end Config
